import Mathlib

/-!
agola: DDL generation (`internal/sqlg/gen/gen_ddl.go`), notification
service migrations (`internal/services/notification/db/migrate.go`) and
organization actions (`internal/services/configstore/action/org.go`)

A shallow embedding of the three Go files and the properties of the generated
and hand-written DDL and of the organization actions.

Conventions of the embedding

* Go `string` is `String`; `[]T` is `List T`; a nil slice is `[]`.
* `error` is `Option Error`, `none` being the nil error.
* `fmt.Sprintf` with only `%s` verbs is string concatenation.
* A transaction handle `*sql.Tx` is an explicit state: the executor function
  standing for the database and the log of statements handed to it so far.
* Collaborators whose source is outside the two files (`objectMetaFields`,
  `sqlg.PopulateObjectsInfo`, `xstrings.FirstRuneToUpper`) are fields of the
  parameter record `Deps`.
* For `org.go` the store is an abstract state `σ`; the store functions, the
  object constructors and the validators, all outside the file, are fields of
  the parameter record `action.Deps`. A transaction is the store state
  together with the log of the writes handed to the store. Go `int` is `Int`
  with 64-bit wrap-around on addition.
-/

set_option autoImplicit false

namespace Agola

/-! ## Go standard library pieces -/

namespace strings

/-- Go `strings.Join(elems, sep)`: the elements concatenated with `sep`
between each two neighbours; the empty string for no element. -/
def Join : List String → String → String
  | [], _ => ""
  | [a], _ => a
  | a :: b :: rest, sep => a ++ sep ++ Join (b :: rest) sep

end strings

/-! ## Package `sql`: dialect tags, errors, transactions -/

namespace sql

/-- Go `type Type string`: the dialect tag (`Type` is a reserved word here). -/
abbrev DBType := String

/-- Modelled from the spec: the constant `sql.Postgres` (declared outside the
given sources), the tag of the postgres dialect. -/
def Postgres : DBType := "postgres"

/-- Modelled from the spec: the constant `sql.Sqlite3` (declared outside the
given sources), the tag of the sqlite3 dialect. -/
def Sqlite3 : DBType := "sqlite3"

end sql

namespace util

/-- Go `util.ErrorKind`: the kinds of API error used in `org.go`. -/
inductive ErrorKind where
  | ErrBadRequest
  | ErrNotExist
  deriving DecidableEq, Repr

end util

/-- A non-nil Go `error` value: an error raised by the database driver, an
error wrapped by `errors.WithStack`, or an API error built by
`util.NewAPIError` from a kind, a message and a detailed error code. -/
inductive Error where
  | driver (msg : String)
  | withStack (cause : Error)
  | api (kind : util.ErrorKind) (msg : String) (code : String)
  deriving DecidableEq, Repr

namespace errors

/-- Go `errors.WithStack(err)` for a non-nil `err`: a new non-nil error that
carries `err` as its cause. -/
def WithStack (err : Error) : Error := Error.withStack err

end errors

namespace sql

/-- The transaction handle `*sql.Tx`: `run` stands for the database (what
executing a statement answers) and `executed` records the statements handed
to `Exec` so far, oldest first. -/
structure Tx where
  run : String → Option Error
  executed : List String

/-- Go `tx.Exec(stmt)`: the statement is executed (recorded) and the database's
answer is returned as the error. -/
def Tx.Exec (tx : Tx) (stmt : String) : Tx × Option Error :=
  ({ tx with executed := tx.executed ++ [stmt] }, tx.run stmt)

end sql

/-! ## Package `sqlg`: the object model -/

namespace sqlg

/-- The fields of `sqlg.ObjectField` read by the DDL generator. -/
structure ObjectField where
  Name : String
  ColName : String
  BaseType : String
  SQLType : String
  Nullable : Bool
  Unique : Bool
  JSON : Bool
  Sequence : Bool
  deriving DecidableEq, Repr

/-- The fields of `sqlg.ObjectInfo` read by the DDL generator. -/
structure ObjectInfo where
  Name : String
  Table : String
  Fields : List ObjectField
  Constraints : List String
  Indexes : List String
  deriving DecidableEq, Repr

/-- Go `type MigrateFunc func(tx *sql.Tx) error`, with the transaction state
passed explicitly. -/
abbrev MigrateFunc := sql.Tx → sql.Tx × Option Error

end sqlg

/-! ## `migrate.go` -/

namespace db

/-- The receiver `*DB`; `sdbType` is what `d.sdb.Type()` returns. -/
structure DB where
  sdbType : sql.DBType

/-- The loop `for _, stmt := range stmts { if _, err := tx.Exec(stmt); err != nil
{ return errors.WithStack(err) } }; return nil` shared by both steps. -/
def execStmts : List String → sql.Tx → sql.Tx × Option Error
  | [], tx => (tx, none)
  | stmt :: rest, tx =>
    match tx.Exec stmt with
    | (tx1, some err) => (tx1, some (errors.WithStack err))
    | (tx1, none) => execStmts rest tx1

/-- The list `ddlPostgres` of `migrateV2`. -/
def migrateV2_ddlPostgres : List String := [
  "create table if not exists lastruneventsequence (id varchar NOT NULL, revision bigint NOT NULL, creation_time timestamptz NOT NULL, update_time timestamptz NOT NULL, value bigint NOT NULL, PRIMARY KEY (id))"
]

/-- The list `ddlSqlite3` of `migrateV2`. -/
def migrateV2_ddlSqlite3 : List String := [
  "create table if not exists lastruneventsequence (id varchar NOT NULL, revision bigint NOT NULL, creation_time timestamp NOT NULL, update_time timestamp NOT NULL, value bigint NOT NULL, PRIMARY KEY (id))"
]

/-- The `switch d.sdb.Type()` of `migrateV2`: `stmts` stays nil when no case
matches. -/
def migrateV2_stmts (t : sql.DBType) : List String :=
  if t = sql.Postgres then migrateV2_ddlPostgres
  else if t = sql.Sqlite3 then migrateV2_ddlSqlite3
  else []

/-- Go `func (d *DB) migrateV2(tx *sql.Tx) error`. -/
def migrateV2 (d : DB) (tx : sql.Tx) : sql.Tx × Option Error :=
  execStmts (migrateV2_stmts d.sdbType) tx

/-- The list `ddlPostgres` of `migrateV3`. -/
def migrateV3_ddlPostgres : List String := [
  "create table if not exists commitstatus (id varchar NOT NULL, revision bigint NOT NULL, creation_time timestamptz NOT NULL, update_time timestamptz NOT NULL, project_id varchar NOT NULL, state varchar NOT NULL, commit_sha varchar NOT NULL, run_counter bigint NOT NULL, description varchar NOT NULL, context varchar NOT NULL, PRIMARY KEY (id))",
  "create table if not exists commitstatusdelivery (id varchar NOT NULL, revision bigint NOT NULL, creation_time timestamptz NOT NULL, update_time timestamptz NOT NULL, sequence bigint generated by default as identity NOT NULL UNIQUE, commit_status_id varchar NOT NULL, delivery_status varchar NOT NULL, delivered_at timestamptz, PRIMARY KEY (id), foreign key (commit_status_id) references commitstatus(id))",
  "create index if not exists commitstatusdelivery_sequence_idx on commitstatusdelivery(sequence)"
]

/-- The list `ddlSqlite3` of `migrateV3`. -/
def migrateV3_ddlSqlite3 : List String := [
  "create table if not exists commitstatus (id varchar NOT NULL, revision bigint NOT NULL, creation_time timestamp NOT NULL, update_time timestamp NOT NULL, project_id varchar NOT NULL, state varchar NOT NULL, commit_sha varchar NOT NULL, run_counter bigint NOT NULL, description varchar NOT NULL, context varchar NOT NULL, PRIMARY KEY (id))",
  "create table if not exists commitstatusdelivery (id varchar NOT NULL, revision bigint NOT NULL, creation_time timestamp NOT NULL, update_time timestamp NOT NULL, sequence integer NOT NULL UNIQUE, commit_status_id varchar NOT NULL, delivery_status varchar NOT NULL, delivered_at timestamp, PRIMARY KEY (id), foreign key (commit_status_id) references commitstatus(id))",
  "create index if not exists commitstatusdelivery_sequence_idx on commitstatusdelivery(sequence)"
]

/-- The `switch d.sdb.Type()` of `migrateV3`: `stmts` stays nil when no case
matches. -/
def migrateV3_stmts (t : sql.DBType) : List String :=
  if t = sql.Postgres then migrateV3_ddlPostgres
  else if t = sql.Sqlite3 then migrateV3_ddlSqlite3
  else []

/-- Go `func (d *DB) migrateV3(tx *sql.Tx) error`. -/
def migrateV3 (d : DB) (tx : sql.Tx) : sql.Tx × Option Error :=
  execStmts (migrateV3_stmts d.sdbType) tx

/-- Go `func (d *DB) MigrateFuncs() map[uint]sqlg.MigrateFunc`: the map literal as
its list of key/value entries. -/
def MigrateFuncs (d : DB) : List (Nat × sqlg.MigrateFunc) :=
  [(2, migrateV2 d), (3, migrateV3 d)]

end db

/-! ## `gen_ddl.go` -/

namespace gen

/-- Go `type DDLGenericDataColInfo struct`. -/
structure DDLGenericDataColInfo where
  Name : String
  Type_ : String
  JSON : Bool
  Nullable : Bool
  deriving DecidableEq, Repr

/-- Go `type DDLGenericDataTableInfo struct`. -/
structure DDLGenericDataTableInfo where
  Name : String
  Columns : List DDLGenericDataColInfo
  deriving DecidableEq, Repr

/-- Go `type DDLDataTable struct`. -/
structure DDLDataTable where
  Table : String
  ColumnDefs : List String
  ConstraintDefs : List String
  DDL : String
  deriving DecidableEq, Repr

/-- Go `type DDLData struct`. -/
structure DDLData where
  Version : Nat
  DBType : String
  TableDefs : List DDLDataTable
  IndexDefs : List String
  deriving DecidableEq, Repr

/-- Go `type DDLDataTableSequence struct`. -/
structure DDLDataTableSequence where
  Name : String
  TableName : String
  ColName : String
  deriving DecidableEq, Repr

/-- Go `type DDLGenericData struct`; the map `Data` is its list of entries. -/
structure DDLGenericData where
  Version : Nat
  Sequences : List DDLDataTableSequence
  Tables : List DDLGenericDataTableInfo
  Data : List (sql.DBType × DDLData)
  deriving DecidableEq, Repr

/-- The fields of `genData` read by the DDL generator. -/
structure genData where
  Version : Nat
  ObjectsInfo : List sqlg.ObjectInfo
  deriving DecidableEq, Repr

/-- The functions called by `gen_ddl.go` whose source lies outside it. -/
structure Deps where
  objectMetaFields : List sqlg.ObjectField
  PopulateObjectsInfo : List sqlg.ObjectInfo → sql.DBType → List sqlg.ObjectInfo
  FirstRuneToUpper : String → String

/-- The first loop of `genDDLGenericData` and of `genDDLData`: every entity
gets `objectMetaFields()` in front of its own fields. -/
def prependMetaFields (deps : Deps) (gd : genData) : List sqlg.ObjectInfo :=
  gd.ObjectsInfo.foldl
    (fun objectsInfo oi =>
      objectsInfo ++ [{ oi with Fields := deps.objectMetaFields ++ oi.Fields }])
    []

/-- One pass of the inner loop of `genDDLGenericData` (lines 77-93): the
state is `(data.Sequences, tableInfo.Columns)`. -/
def genericFieldStep (oi : sqlg.ObjectInfo)
    (st : List DDLDataTableSequence × List DDLGenericDataColInfo)
    ( of : sqlg.ObjectField) :
    List DDLDataTableSequence × List DDLGenericDataColInfo :=
  let colName := of.ColName
  let seqs :=
    if of.Sequence then
      let sequenceName := oi.Table ++ "_" ++ colName ++ "_seq"
      st.1 ++ [{ Name := sequenceName, TableName := oi.Table, ColName := colName }]
    else st.1
  (seqs, st.2 ++ [{ Name := colName, Type_ := of.BaseType, JSON := of.JSON,
                    Nullable := of.Nullable }])

/-- One pass of the outer loop of `genDDLGenericData` (lines 70-97). -/
def genericTableStep (data : DDLGenericData) (oi : sqlg.ObjectInfo) : DDLGenericData :=
  let r := oi.Fields.foldl (genericFieldStep oi) (data.Sequences, [])
  let tableInfo : DDLGenericDataTableInfo := { Name := oi.Table, Columns := r.2 }
  { data with Sequences := r.1, Tables := data.Tables ++ [tableInfo] }

/-- Go `func genDDLGenericData(gd *genData) DDLGenericData`. -/
def genDDLGenericData (deps : Deps) (gd : genData) : DDLGenericData :=
  let objectsInfo := deps.PopulateObjectsInfo (prependMetaFields deps gd) ""
  let data : DDLGenericData :=
    { Version := gd.Version, Sequences := [], Tables := [], Data := [] }
  objectsInfo.foldl genericTableStep data

/-- One pass of the inner loop of `genDDLData` (lines 121-130): the column
definition of a field is appended to `tableDef.ColumnDefs`. -/
def columnDefStep (columnDefs : List String) ( of : sqlg.ObjectField) : List String :=
  let colName := of.ColName
  let colDef := colName ++ " " ++ of.SQLType
  let colDef := if !of.Nullable then colDef ++ " NOT NULL" else colDef
  let colDef := if of.Unique then colDef ++ " UNIQUE" else colDef
  columnDefs ++ [colDef]

/-- Lines 118-140 of `genDDLData`: the table definition built for one
entity. -/
def genTableDef (oi : sqlg.ObjectInfo) : DDLDataTable :=
  let columnDefs := oi.Fields.foldl columnDefStep []
  let constraintDefs := oi.Constraints
  let ddl := "create table if not exists " ++ oi.Table ++ " ("
    ++ strings.Join columnDefs ", " ++ ", PRIMARY KEY (id)"
  let ddl :=
    if constraintDefs.length > 0 then
      (ddl ++ ", ") ++ strings.Join constraintDefs ", "
    else ddl
  let ddl := ddl ++ ")"
  { Table := oi.Table, ColumnDefs := columnDefs, ConstraintDefs := constraintDefs,
    DDL := ddl }

/-- One pass of the outer loop of `genDDLData` (lines 117-145). -/
def tableStep (data : DDLData) (oi : sqlg.ObjectInfo) : DDLData :=
  { data with
    TableDefs := data.TableDefs ++ [genTableDef oi]
    IndexDefs := data.IndexDefs ++ oi.Indexes }

/-- Go `func genDDLData(gd *genData, dbType sql.DBType) DDLData`. -/
def genDDLData (deps : Deps) (gd : genData) (dbType : sql.DBType) : DDLData :=
  let objectsInfo := deps.PopulateObjectsInfo (prependMetaFields deps gd) dbType
  let data : DDLData :=
    { Version := gd.Version, DBType := deps.FirstRuneToUpper dbType,
      TableDefs := [], IndexDefs := [] }
  objectsInfo.foldl tableStep data

/-- The entries of the slice literal `var DDL<DBType> = []string{...}` that
`ddlTemplate` writes for one dialect: first the range over `TableDefs`, one
entry `$tableDef.DDL` each, then the range over `IndexDefs`. -/
def ddlTemplate_statements (data : DDLData) : List String :=
  data.TableDefs.map (fun tableDef => tableDef.DDL) ++ data.IndexDefs

end gen

/-! ## Vocabulary of the properties -/

/-- Text `s` begins with text `p`. -/
def beginsWith (p s : String) : Bool := p.toList.isPrefixOf s.toList

/-- Text `s` ends with text `p`. -/
def endsWith (p s : String) : Bool := p.toList.isSuffixOf s.toList

/-- The column definition the generator writes for a resolved field:
`name type`, then ` NOT NULL` for a field that is not nullable, then
` UNIQUE` for a unique field. -/
def columnDef ( of : sqlg.ObjectField) : String :=
  of.ColName ++ " " ++ of.SQLType
    ++ (if of.Nullable then "" else " NOT NULL")
    ++ (if of.Unique then " UNIQUE" else "")

/-- The clauses `cs` written one after the other, each preceded by the
separator `, `. -/
def clauseTail : List String → String
  | [] => ""
  | c :: cs => ", " ++ c ++ clauseTail cs

/-- What a run of a migration step over the statement list `stmts`, started
on the transaction `tx` and ending in `out`, has to satisfy: the database is
untouched as a function; the result is nil exactly when every statement of
the list succeeds, and then the whole list was executed in order; when the
statement `s` is the first of the list that fails, with error `e`, exactly the
statements up to and including `s` were executed, in order, and the result is
`e` wrapped by `errors.WithStack`. -/
def StopsAtFirstFailure (stmts : List String) (tx : sql.Tx)
    (out : sql.Tx × Option Error) : Prop :=
  out.1.run = tx.run ∧
  (out.2 = none ↔ ∀ s ∈ stmts, tx.run s = none) ∧
  (out.2 = none → out.1.executed = tx.executed ++ stmts) ∧
  (∀ (pre : List String) (s : String) (post : List String) (e : Error),
    stmts = pre ++ s :: post → (∀ x ∈ pre, tx.run x = none) → tx.run s = some e →
      out.1.executed = tx.executed ++ (pre ++ [s]) ∧
      out.2 = some (errors.WithStack e))

/-- Text `s` contains text `p` somewhere. -/
def containsText (p s : String) : Bool :=
  s.toList.tails.any (fun rest => p.toList.isPrefixOf rest)

/-- Worker of `replaceText` on characters: `skip` counts the characters of
a match just replaced that are still to be passed over. -/
def replaceChars (old new : List Char) : Nat → List Char → List Char
  | _, [] => []
  | skip + 1, _ :: cs => replaceChars old new skip cs
  | 0, c :: cs =>
    if old.isPrefixOf (c :: cs) then new ++ replaceChars old new (old.length - 1) cs
    else c :: replaceChars old new 0 cs

/-- Text `s` with every occurrence of the non-empty text `old`, found from
left to right without overlap, replaced by `new`. -/
def replaceText (old new s : String) : String :=
  if old.isEmpty then s else String.mk (replaceChars old.toList new.toList 0 s.toList)

/-- The postgres spelling of a statement turned into the sqlite3 spelling:
`timestamptz` becomes `timestamp` and `bigint generated by default as identity`
becomes `integer`. -/
def toSqlite3Spelling (stmt : String) : String :=
  replaceText "bigint generated by default as identity" "integer"
    (replaceText "timestamptz" "timestamp" stmt)

/-- The sequence descriptor of a sequence-backed field `of` of the resolved
entity `oi`. -/
def sequenceOf (oi : sqlg.ObjectInfo) ( of : sqlg.ObjectField) : gen.DDLDataTableSequence :=
  { Name := oi.Table ++ "_" ++ of.ColName ++ "_seq", TableName := oi.Table,
    ColName := of.ColName }

/-- The sequence descriptors of the sequence-backed fields of a resolved
entity, in field order. -/
def sequencesOf (oi : sqlg.ObjectInfo) : List gen.DDLDataTableSequence :=
  (oi.Fields.filter (fun f => f.Sequence)).map (sequenceOf oi)

/-- The dialect adapter: the table name of an entity and the resolution of a
field for a dialect. -/
structure Adapter where
  tableName : sqlg.ObjectInfo → String
  resolveField : sql.DBType → sqlg.ObjectField → sqlg.ObjectField

namespace sqlg

/-- Modelled from the spec: `sqlg.PopulateObjectsInfo`, whose source is
outside the given files. Following section 4.2 step 1 of the spec ("resolve
every field's concrete SQL type via the Dialect Adapter"), every entity stays
in place with its constraints and indexes, gets its table name, and every one
of its fields is resolved in place by the adapter. -/
def PopulateObjectsInfo (a : Adapter) (objectsInfo : List ObjectInfo) (dbType : sql.DBType) :
    List ObjectInfo :=
  objectsInfo.map (fun oi =>
    { oi with Table := a.tableName oi, Fields := oi.Fields.map (a.resolveField dbType) })

end sqlg

/-- The collaborators of `gen_ddl.go` with `PopulateObjectsInfo` given by
the adapter `a`. -/
def adapterDeps (a : Adapter) (metaFields : List sqlg.ObjectField) : gen.Deps :=
  { objectMetaFields := metaFields
    PopulateObjectsInfo := sqlg.PopulateObjectsInfo a
    FirstRuneToUpper := String.capitalize }

/-- The statement list `stmts` consists of the statement creating the table
`commitstatus`, then the statement creating the table `commitstatusdelivery`
with a foreign key referencing `commitstatus(id)`, then a statement creating
an index on `commitstatusdelivery(sequence)`. -/
def CreatesCommitStatusTables (stmts : List String) : Prop :=
  ∃ s0 s1 s2 : String, stmts = [s0, s1, s2] ∧
    beginsWith "create table if not exists commitstatus (" s0 = true ∧
    beginsWith "create table if not exists commitstatusdelivery (" s1 = true ∧
    containsText "foreign key (commit_status_id) references commitstatus(id)" s1 = true ∧
    beginsWith "create index if not exists " s2 = true ∧
    endsWith " on commitstatusdelivery(sequence)" s2 = true

/-- The statement list `stmts` consists of one statement, which creates the
table `lastruneventsequence`. -/
def CreatesOnlyLastRunEventSequence (stmts : List String) : Prop :=
  ∃ s0 : String, stmts = [s0] ∧
    beginsWith "create table if not exists lastruneventsequence (" s0 = true

/-! ## Concrete inputs -/

namespace sample

/-- A resolved column: name, SQL type, nullability, uniqueness. -/
def column (name sqlType : String) (nullable unique : Bool) : sqlg.ObjectField :=
  { Name := name, ColName := name, BaseType := sqlType, SQLType := sqlType,
    Nullable := nullable, Unique := unique, JSON := false, Sequence := false }

/-- The timestamp type of a dialect, as spelled in the migration statements. -/
def timeType (t : sql.DBType) : String :=
  if t = sql.Postgres then "timestamptz" else "timestamp"

/-- The type of a sequence column of a dialect, as spelled in the migration
statements. -/
def sequenceType (t : sql.DBType) : String :=
  if t = sql.Postgres then "bigint generated by default as identity" else "integer"

/-- The four metadata columns in their resolved form. -/
def metaColumns (t : sql.DBType) : List sqlg.ObjectField :=
  [column "id" "varchar" false false,
   column "revision" "bigint" false false,
   column "creation_time" (timeType t) false false,
   column "update_time" (timeType t) false false]

/-- Collaborators for input that is already resolved: the metadata columns
are the resolved ones of dialect `t` and resolution changes nothing. -/
def resolvedDeps (t : sql.DBType) : gen.Deps :=
  { objectMetaFields := metaColumns t
    PopulateObjectsInfo := fun objectsInfo _ => objectsInfo
    FirstRuneToUpper := String.capitalize }

/-- The resolved description of the table `lastruneventsequence`. -/
def lastruneventsequence : sqlg.ObjectInfo :=
  { Name := "LastRunEventSequence", Table := "lastruneventsequence",
    Fields := [column "value" "bigint" false false],
    Constraints := [], Indexes := [] }

/-- The resolved description of the table `commitstatus`. -/
def commitstatus : sqlg.ObjectInfo :=
  { Name := "CommitStatus", Table := "commitstatus",
    Fields := [column "project_id" "varchar" false false,
               column "state" "varchar" false false,
               column "commit_sha" "varchar" false false,
               column "run_counter" "bigint" false false,
               column "description" "varchar" false false,
               column "context" "varchar" false false],
    Constraints := [], Indexes := [] }

/-- The resolved description of the table `commitstatusdelivery` for the
dialect `t`. -/
def commitstatusdelivery (t : sql.DBType) : sqlg.ObjectInfo :=
  { Name := "CommitStatusDelivery", Table := "commitstatusdelivery",
    Fields := [{ column "sequence" (sequenceType t) false true with Sequence := true },
               column "commit_status_id" "varchar" false false,
               column "delivery_status" "varchar" false false,
               column "delivered_at" (timeType t) true false],
    Constraints := ["foreign key (commit_status_id) references commitstatus(id)"],
    Indexes := ["create index if not exists commitstatusdelivery_sequence_idx on commitstatusdelivery(sequence)"] }

/-- The resolved object model of the notification service for dialect `t`. -/
def model (t : sql.DBType) : gen.genData :=
  { Version := 3,
    ObjectsInfo := [lastruneventsequence, commitstatus, commitstatusdelivery t] }

/-- A database on which every statement fails. -/
def failingTx : sql.Tx :=
  { run := fun stmt => some (Error.driver stmt), executed := [] }

/-- A database on which exactly the index statement of `migrateV3` fails. -/
def failOnIndexTx : sql.Tx :=
  { run := fun stmt =>
      if stmt = "create index if not exists commitstatusdelivery_sequence_idx on commitstatusdelivery(sequence)"
      then some (Error.driver "index") else none
    executed := [] }

end sample

/-! ## `org.go`: types of the configstore -/

namespace types

/-- Go `type Visibility string`. -/
abbrev Visibility := String

/-- Go `type MemberRole string`. -/
abbrev MemberRole := String

/-- Go `type SortDirection string`. -/
abbrev SortDirection := String

/-- Go `type ObjectKind string`. -/
abbrev ObjectKind := String

/-- Go `types.Parent`. -/
structure Parent where
  Kind : ObjectKind
  ID : String
  deriving DecidableEq, Repr

/-- The fields of `types.Organization` used in `org.go`. -/
structure Organization where
  ID : String
  Name : String
  Visibility : Visibility
  CreatorUserID : String
  deriving DecidableEq, Repr

/-- The fields of `types.OrganizationMember` used in `org.go`. -/
structure OrganizationMember where
  ID : String
  OrganizationID : String
  UserID : String
  MemberRole : MemberRole
  deriving DecidableEq, Repr

/-- The fields of `types.ProjectGroup` used in `org.go`. -/
structure ProjectGroup where
  ID : String
  Parent : Parent
  Visibility : Visibility
  deriving DecidableEq, Repr

/-- The fields of `types.User` used in `org.go`. -/
structure User where
  ID : String
  Name : String
  deriving DecidableEq, Repr

/-- The fields of `types.OrgInvitation` used in `org.go`. -/
structure OrgInvitation where
  ID : String
  UserID : String
  OrganizationID : String
  Role : MemberRole
  deriving DecidableEq, Repr

end types

namespace util

/-- Go `util.NewAPIError(kind, util.WithAPIErrorMsg(msg), detailedError)`; the
detailed error is named by the constructor of package `serrors` that builds
it. -/
def NewAPIError (kind : ErrorKind) (msg : String) (code : String) : Error :=
  Error.api kind msg code

end util

/-- Go `int` on a 64-bit platform: the largest value. -/
def maxInt : Int := 2 ^ 63 - 1

/-- Go `int` on a 64-bit platform: the smallest value. -/
def minInt : Int := -(2 ^ 63)

/-- Go `a + b` on `int`: the sum wrapped around into the 64-bit range. -/
def intAdd (a b : Int) : Int := (a + b + 2 ^ 63) % 2 ^ 64 - 2 ^ 63

namespace action

/-- Package `configstore/db`: Go `db.OrgUser`. -/
structure OrgUser where
  User : types.User
  Role : types.MemberRole
  deriving DecidableEq, Repr

/-- A write handed to the store by one of the functions embedded here. -/
inductive Write where
  | InsertOrganization (org : types.Organization)
  | InsertOrganizationMember (orgmember : types.OrganizationMember)
  | InsertOrUpdateOrganizationMember (orgmember : types.OrganizationMember)
  | InsertProjectGroup (pg : types.ProjectGroup)
  | DeleteOrgInvitation (id : String)
  deriving DecidableEq, Repr

/-- What `org.go` calls and reads from outside the file, over a store with
states `σ`: constants and validators of packages `types` and `util`, the `%q`
verb of `fmt`, the object constructors `types.New...(tx)`, the store
functions `h.d....(tx, ...)` and the handler methods `h.GetOrgByRef` and
`h.GetUserByRef`. A function returning `(value, error)` is an `Except`; a
function returning only `error` yields the next store state and the error.
An object handed to a store function keeps the fields modelled here. -/
structure Deps (σ : Type) where
  MemberRoleOwner : types.MemberRole
  ObjectKindOrg : types.ObjectKind
  VisibilityPublic : types.Visibility
  SortDirectionAsc : types.SortDirection
  IsValidVisibility : types.Visibility → Bool
  IsValidMemberRole : types.MemberRole → Bool
  ValidateName : String → Bool
  q : String → String
  NewOrganization : σ → σ × types.Organization
  NewOrganizationMember : σ → σ × types.OrganizationMember
  NewProjectGroup : σ → σ × types.ProjectGroup
  GetOrgByName : σ → String → Except Error (Option types.Organization)
  GetOrgByRef : σ → String → Except Error (Option types.Organization)
  GetUserByRef : σ → String → Except Error (Option types.User)
  GetOrgs : σ → String → List types.Visibility → Int → types.SortDirection →
    Except Error (List types.Organization)
  GetOrgMembers : σ → String → String → Int → types.SortDirection →
    Except Error (List OrgUser)
  GetOrgMemberByOrgUserID : σ → String → String →
    Except Error (Option types.OrganizationMember)
  GetOrgInvitationByOrgUserID : σ → String → String →
    Except Error (Option types.OrgInvitation)
  InsertOrganization : σ → types.Organization → σ × Option Error
  InsertOrganizationMember : σ → types.OrganizationMember → σ × Option Error
  InsertOrUpdateOrganizationMember : σ → types.OrganizationMember → σ × Option Error
  InsertProjectGroup : σ → types.ProjectGroup → σ × Option Error
  DeleteOrgInvitation : σ → String → σ × Option Error

/-- The transaction handle `*sql.Tx` of the configstore: the state of the
store and the writes handed to the store so far, oldest first. -/
structure Tx (σ : Type) where
  store : σ
  writes : List Write

/-- Modelled from the spec: `h.d.Do(ctx, f)`, whose source is outside the
given files. Following section 1 of the spec ("an execute-within-transaction
primitive with commit-on-success/rollback-on-error semantics"), `f` runs on
the transaction; when it returns nil its effects are kept, when it returns an
error the transaction is rolled back to where it started and the error is
returned. -/
def Do {σ α : Type} (tx : Tx σ) (f : Tx σ → Tx σ × Except Error α) :
    Tx σ × Except Error α :=
  match f tx with
  | (tx1, Except.ok a) => (tx1, Except.ok a)
  | (_, Except.error err) => (tx, Except.error err)

/-- Go `types.NewOrganization(tx)`. -/
def NewOrganization {σ : Type} (d : Deps σ) (tx : Tx σ) : Tx σ × types.Organization :=
  ({ tx with store := (d.NewOrganization tx.store).1 }, (d.NewOrganization tx.store).2)

/-- Go `types.NewOrganizationMember(tx)`. -/
def NewOrganizationMember {σ : Type} (d : Deps σ) (tx : Tx σ) : Tx σ × types.OrganizationMember :=
  ({ tx with store := (d.NewOrganizationMember tx.store).1 },
    (d.NewOrganizationMember tx.store).2)

/-- Go `types.NewProjectGroup(tx)`. -/
def NewProjectGroup {σ : Type} (d : Deps σ) (tx : Tx σ) : Tx σ × types.ProjectGroup :=
  ({ tx with store := (d.NewProjectGroup tx.store).1 }, (d.NewProjectGroup tx.store).2)

/-- Go `h.d.InsertOrganization(tx, org)`: the write is recorded and handed to
the store. -/
def InsertOrganization {σ : Type} (d : Deps σ) (tx : Tx σ) (org : types.Organization) :
    Tx σ × Option Error :=
  ({ store := (d.InsertOrganization tx.store org).1,
     writes := tx.writes ++ [Write.InsertOrganization org] },
    (d.InsertOrganization tx.store org).2)

/-- Go `h.d.InsertOrganizationMember(tx, orgmember)`. -/
def InsertOrganizationMember {σ : Type} (d : Deps σ) (tx : Tx σ)
    (orgmember : types.OrganizationMember) : Tx σ × Option Error :=
  ({ store := (d.InsertOrganizationMember tx.store orgmember).1,
     writes := tx.writes ++ [Write.InsertOrganizationMember orgmember] },
    (d.InsertOrganizationMember tx.store orgmember).2)

/-- Go `h.d.InsertOrUpdateOrganizationMember(tx, orgmember)`. -/
def InsertOrUpdateOrganizationMember {σ : Type} (d : Deps σ) (tx : Tx σ)
    (orgmember : types.OrganizationMember) : Tx σ × Option Error :=
  ({ store := (d.InsertOrUpdateOrganizationMember tx.store orgmember).1,
     writes := tx.writes ++ [Write.InsertOrUpdateOrganizationMember orgmember] },
    (d.InsertOrUpdateOrganizationMember tx.store orgmember).2)

/-- Go `h.d.InsertProjectGroup(tx, pg)`. -/
def InsertProjectGroup {σ : Type} (d : Deps σ) (tx : Tx σ) (pg : types.ProjectGroup) :
    Tx σ × Option Error :=
  ({ store := (d.InsertProjectGroup tx.store pg).1,
     writes := tx.writes ++ [Write.InsertProjectGroup pg] },
    (d.InsertProjectGroup tx.store pg).2)

/-- Go `h.d.DeleteOrgInvitation(tx, id)`. -/
def DeleteOrgInvitation {σ : Type} (d : Deps σ) (tx : Tx σ) (id : String) : Tx σ × Option Error :=
  ({ store := (d.DeleteOrgInvitation tx.store id).1,
     writes := tx.writes ++ [Write.DeleteOrgInvitation id] },
    (d.DeleteOrgInvitation tx.store id).2)

end action

namespace action

/-- Go `type OrgMember struct`. -/
structure OrgMember where
  User : types.User
  Role : types.MemberRole
  deriving DecidableEq, Repr

/-- Go `func orgMemberResponse(orgUser *db.OrgUser) *OrgMember`. -/
def orgMemberResponse (orgUser : OrgUser) : OrgMember :=
  { User := orgUser.User, Role := orgUser.Role }

/-- Go `type GetOrgMembersRequest struct`. -/
structure GetOrgMembersRequest where
  OrgRef : String
  StartUserName : String
  Limit : Int
  SortDirection : types.SortDirection
  deriving DecidableEq, Repr

/-- Go `type GetOrgMembersResponse struct`. -/
structure GetOrgMembersResponse where
  OrgMembers : List OrgMember
  HasMore : Bool
  deriving DecidableEq, Repr

/-- Lines 57-60 of `GetOrgMembers` and 135-138 of `GetOrgs`: the limit handed
to the store, `limit := req.Limit; if limit > 0 { limit += 1 }`. -/
def storeLimit (reqLimit : Int) : Int :=
  if reqLimit > 0 then intAdd reqLimit 1 else reqLimit

/-- Lines 61-63 and 139-141: an empty sort direction becomes
`types.SortDirectionAsc`. -/
def sortDirectionOf {σ : Type} (d : Deps σ) (sortDirection : types.SortDirection) :
    types.SortDirection :=
  if sortDirection = "" then d.SortDirectionAsc else sortDirection

/-- The function handed to `h.d.Do` by `GetOrgMembers` (lines 66-78); its
value is the captured `dbOrgMembers`. -/
def GetOrgMembers_tx {σ : Type} (d : Deps σ) (req : GetOrgMembersRequest) (limit : Int)
    (tx : Tx σ) : Tx σ × Except Error (List OrgUser) :=
  match d.GetOrgByRef tx.store req.OrgRef with
  | Except.error err => (tx, Except.error (errors.WithStack err))
  | Except.ok none =>
    (tx, Except.error (util.NewAPIError util.ErrorKind.ErrNotExist
      ("org " ++ d.q req.OrgRef ++ " doesn't exist") "OrganizationDoesNotExist"))
  | Except.ok (some org) =>
    match d.GetOrgMembers tx.store org.ID req.StartUserName limit
        (sortDirectionOf d req.SortDirection) with
    | Except.error err => (tx, Except.error (errors.WithStack err))
    | Except.ok dbOrgMembers => (tx, Except.ok dbOrgMembers)

/-- Go `func (h *ActionHandler) GetOrgMembers(ctx, req)`. -/
def GetOrgMembers {σ : Type} (d : Deps σ) (req : GetOrgMembersRequest) (tx : Tx σ) :
    Tx σ × Except Error GetOrgMembersResponse :=
  let limit := storeLimit req.Limit
  match Do tx (GetOrgMembers_tx d req limit) with
  | (tx1, Except.error err) => (tx1, Except.error (errors.WithStack err))
  | (tx1, Except.ok dbOrgMembers) =>
    let orgMembers := dbOrgMembers.map orgMemberResponse
    let hasMore : Bool :=
      if req.Limit > 0 then decide ((orgMembers.length : Int) > req.Limit) else false
    let orgMembers :=
      if req.Limit > 0 ∧ hasMore = true then orgMembers.take req.Limit.toNat else orgMembers
    (tx1, Except.ok { OrgMembers := orgMembers, HasMore := hasMore })

/-- Go `type GetOrgsRequest struct`. -/
structure GetOrgsRequest where
  StartOrgName : String
  Visibilities : List types.Visibility
  Limit : Int
  SortDirection : types.SortDirection
  deriving DecidableEq, Repr

/-- Go `type GetOrgsResponse struct`. -/
structure GetOrgsResponse where
  Orgs : List types.Organization
  HasMore : Bool
  deriving DecidableEq, Repr

/-- Lines 143-147 of `GetOrgs`: no visibility asked for means only the public
one. -/
def visibilitiesOf {σ : Type} (d : Deps σ) (visibilities : List types.Visibility) :
    List types.Visibility :=
  if visibilities.length = 0 then [d.VisibilityPublic] else visibilities

/-- The function handed to `h.d.Do` by `GetOrgs` (lines 150-154); its value is
the captured `orgs`. -/
def GetOrgs_tx {σ : Type} (d : Deps σ) (req : GetOrgsRequest) (limit : Int) (tx : Tx σ) :
    Tx σ × Except Error (List types.Organization) :=
  match d.GetOrgs tx.store req.StartOrgName (visibilitiesOf d req.Visibilities) limit
      (sortDirectionOf d req.SortDirection) with
  | Except.error err => (tx, Except.error (errors.WithStack err))
  | Except.ok orgs => (tx, Except.ok orgs)

/-- Go `func (h *ActionHandler) GetOrgs(ctx, req)`. -/
def GetOrgs {σ : Type} (d : Deps σ) (req : GetOrgsRequest) (tx : Tx σ) :
    Tx σ × Except Error GetOrgsResponse :=
  let limit := storeLimit req.Limit
  match Do tx (GetOrgs_tx d req limit) with
  | (tx1, Except.error err) => (tx1, Except.error (errors.WithStack err))
  | (tx1, Except.ok orgs) =>
    let hasMore : Bool :=
      if req.Limit > 0 then decide ((orgs.length : Int) > req.Limit) else false
    let orgs := if req.Limit > 0 ∧ hasMore = true then orgs.take req.Limit.toNat else orgs
    (tx1, Except.ok { Orgs := orgs, HasMore := hasMore })

/-- Go `type CreateOrgRequest struct`. -/
structure CreateOrgRequest where
  Name : String
  Visibility : types.Visibility
  CreatorUserID : String
  deriving DecidableEq, Repr

/-- Lines 202-210 of `CreateOrg`: a creator that is given has to exist; the
value is the error returned, if any. -/
def CreateOrg_checkCreator {σ : Type} (d : Deps σ) (req : CreateOrgRequest) (tx : Tx σ) :
    Option Error :=
  if req.CreatorUserID ≠ "" then
    match d.GetUserByRef tx.store req.CreatorUserID with
    | Except.error err => some (errors.WithStack err)
    | Except.ok none =>
      some (util.NewAPIError util.ErrorKind.ErrNotExist
        ("creator user " ++ d.q req.CreatorUserID ++ " doesn't exist")
        "CreatorUserDoesNotExist")
    | Except.ok (some _) => none
  else none

/-- Lines 221-231 of `CreateOrg`: the creator becomes a member with role
owner. -/
def CreateOrg_addCreator {σ : Type} (d : Deps σ) (org : types.Organization) (tx : Tx σ) :
    Tx σ × Option Error :=
  if org.CreatorUserID ≠ "" then
    let r := NewOrganizationMember d tx
    let orgmember : types.OrganizationMember :=
      { r.2 with OrganizationID := org.ID, UserID := org.CreatorUserID,
                 MemberRole := d.MemberRoleOwner }
    match InsertOrganizationMember d r.1 orgmember with
    | (tx1, some err) => (tx1, some (errors.WithStack err))
    | (tx1, none) => (tx1, none)
  else (tx, none)

/-- Lines 233-246 of `CreateOrg`: the root project group of the organization
is created. -/
def CreateOrg_addRootGroup {σ : Type} (d : Deps σ) (org : types.Organization) (tx : Tx σ) :
    Tx σ × Except Error types.Organization :=
  let r := NewProjectGroup d tx
  let pg : types.ProjectGroup :=
    { r.2 with Visibility := org.Visibility,
               Parent := { Kind := d.ObjectKindOrg, ID := org.ID } }
  match InsertProjectGroup d r.1 pg with
  | (tx1, some err) => (tx1, Except.error (errors.WithStack err))
  | (tx1, none) => (tx1, Except.ok org)

/-- The function handed to `h.d.Do` by `CreateOrg` (lines 191-247); its value
is the captured `org`. -/
def CreateOrg_tx {σ : Type} (d : Deps σ) (req : CreateOrgRequest) (tx : Tx σ) :
    Tx σ × Except Error types.Organization :=
  match d.GetOrgByName tx.store req.Name with
  | Except.error err => (tx, Except.error (errors.WithStack err))
  | Except.ok (some o) =>
    (tx, Except.error (util.NewAPIError util.ErrorKind.ErrBadRequest
      ("org " ++ d.q o.Name ++ " already exists") "OrganizationAlreadyExists"))
  | Except.ok none =>
    match CreateOrg_checkCreator d req tx with
    | some err => (tx, Except.error err)
    | none =>
      let r := NewOrganization d tx
      let org : types.Organization :=
        { r.2 with Name := req.Name, Visibility := req.Visibility,
                   CreatorUserID := req.CreatorUserID }
      match InsertOrganization d r.1 org with
      | (tx1, some err) => (tx1, Except.error (errors.WithStack err))
      | (tx1, none) =>
        match CreateOrg_addCreator d org tx1 with
        | (tx2, some err) => (tx2, Except.error err)
        | (tx2, none) => CreateOrg_addRootGroup d org tx2

/-- Go `func (h *ActionHandler) CreateOrg(ctx, req)`. -/
def CreateOrg {σ : Type} (d : Deps σ) (req : CreateOrgRequest) (tx : Tx σ) :
    Tx σ × Except Error types.Organization :=
  if req.Name = "" then
    (tx, Except.error (util.NewAPIError util.ErrorKind.ErrBadRequest
      "organization name required" "InvalidOrganizationName"))
  else if !d.ValidateName req.Name then
    (tx, Except.error (util.NewAPIError util.ErrorKind.ErrBadRequest
      ("invalid organization name " ++ d.q req.Name) "InvalidOrganizationName"))
  else if !d.IsValidVisibility req.Visibility then
    (tx, Except.error (util.NewAPIError util.ErrorKind.ErrBadRequest
      "invalid organization visibility" "InvalidVisibility"))
  else
    match Do tx (CreateOrg_tx d req) with
    | (tx1, Except.error err) => (tx1, Except.error (errors.WithStack err))
    | (tx1, Except.ok org) => (tx1, Except.ok org)

/-- Lines 395-411 of `AddOrgMember`: the member is written and the
invitation of the user to the organization, if there is one, is deleted. -/
def AddOrgMember_write {σ : Type} (d : Deps σ) (org : types.Organization)
    (user : types.User) (orgmember : types.OrganizationMember) (tx : Tx σ) :
    Tx σ × Except Error types.OrganizationMember :=
  match InsertOrUpdateOrganizationMember d tx orgmember with
  | (tx1, some err) => (tx1, Except.error (errors.WithStack err))
  | (tx1, none) =>
    match d.GetOrgInvitationByOrgUserID tx1.store org.ID user.ID with
    | Except.error err => (tx1, Except.error (errors.WithStack err))
    | Except.ok none => (tx1, Except.ok orgmember)
    | Except.ok (some orgInvitation) =>
      match DeleteOrgInvitation d tx1 orgInvitation.ID with
      | (tx2, some err) => (tx2, Except.error (errors.WithStack err))
      | (tx2, none) => (tx2, Except.ok orgmember)

/-- The function handed to `h.d.Do` by `AddOrgMember` (lines 358-412); its
value is the captured `orgmember`. -/
def AddOrgMember_tx {σ : Type} (d : Deps σ) (orgRef userRef : String)
    (role : types.MemberRole) (tx : Tx σ) :
    Tx σ × Except Error types.OrganizationMember :=
  match d.GetOrgByRef tx.store orgRef with
  | Except.error err => (tx, Except.error (errors.WithStack err))
  | Except.ok none =>
    (tx, Except.error (util.NewAPIError util.ErrorKind.ErrNotExist
      ("org " ++ d.q orgRef ++ " doesn't exists") "OrganizationDoesNotExist"))
  | Except.ok (some org) =>
    match d.GetUserByRef tx.store userRef with
    | Except.error err => (tx, Except.error (errors.WithStack err))
    | Except.ok none =>
      (tx, Except.error (util.NewAPIError util.ErrorKind.ErrNotExist
        ("user " ++ d.q userRef ++ " doesn't exists") "UserDoesNotExist"))
    | Except.ok (some user) =>
      match d.GetOrgMemberByOrgUserID tx.store org.ID user.ID with
      | Except.error err => (tx, Except.error (errors.WithStack err))
      | Except.ok (some orgmember) =>
        if orgmember.MemberRole = role then (tx, Except.ok orgmember)
        else AddOrgMember_write d org user { orgmember with MemberRole := role } tx
      | Except.ok none =>
        let r := NewOrganizationMember d tx
        AddOrgMember_write d org user
          { r.2 with OrganizationID := org.ID, UserID := user.ID, MemberRole := role } r.1

/-- Go `func (h *ActionHandler) AddOrgMember(ctx, orgRef, userRef, role)`. -/
def AddOrgMember {σ : Type} (d : Deps σ) (orgRef userRef : String)
    (role : types.MemberRole) (tx : Tx σ) :
    Tx σ × Except Error types.OrganizationMember :=
  if !d.IsValidMemberRole role then
    (tx, Except.error (util.NewAPIError util.ErrorKind.ErrBadRequest
      ("invalid role " ++ d.q role) "InvalidRole"))
  else
    match Do tx (AddOrgMember_tx d orgRef userRef role) with
    | (tx1, Except.error err) => (tx1, Except.error (errors.WithStack err))
    | (tx1, Except.ok orgmember) => (tx1, Except.ok orgmember)

end action

/-! ## A store in memory, for concrete runs -/

namespace sample

/-- A store in memory: the rows of each kind and the number of objects
constructed so far. -/
structure MemStore where
  orgs : List types.Organization
  users : List types.User
  members : List types.OrganizationMember
  invitations : List types.OrgInvitation
  groups : List types.ProjectGroup
  made : Nat
  deriving DecidableEq, Repr

/-- The id of the `n`-th constructed object. -/
def newID (n : Nat) : String := "new-" ++ String.mk (List.replicate n 'i')

/-- The collaborators of `org.go` over the store in memory: lookups search
the rows, inserts append a row, insert-or-update replaces the row with the
same id or appends, delete removes the rows with the id, and the list
queries return the matching rows, at most `limit` of them for a positive
`limit`. -/
def memDeps : action.Deps MemStore :=
  { MemberRoleOwner := "owner"
    ObjectKindOrg := "org"
    VisibilityPublic := "public"
    SortDirectionAsc := "asc"
    IsValidVisibility := fun v => v = "public" || v = "private"
    IsValidMemberRole := fun r => r = "owner" || r = "member"
    ValidateName := fun n => n.toList.all Char.isAlphanum
    q := fun s => "\"" ++ s ++ "\""
    NewOrganization := fun st =>
      ({ st with made := st.made + 1 },
        { ID := newID st.made, Name := "", Visibility := "", CreatorUserID := "" })
    NewOrganizationMember := fun st =>
      ({ st with made := st.made + 1 },
        { ID := newID st.made, OrganizationID := "", UserID := "", MemberRole := "" })
    NewProjectGroup := fun st =>
      ({ st with made := st.made + 1 },
        { ID := newID st.made, Parent := { Kind := "", ID := "" }, Visibility := "" })
    GetOrgByName := fun st name => Except.ok (st.orgs.find? (fun o => o.Name = name))
    GetOrgByRef := fun st ref =>
      Except.ok (st.orgs.find? (fun o => o.ID = ref || o.Name = ref))
    GetUserByRef := fun st ref =>
      Except.ok (st.users.find? (fun u => u.ID = ref || u.Name = ref))
    GetOrgs := fun st _ visibilities limit _ =>
      Except.ok
        (let rows := st.orgs.filter (fun o => visibilities.contains o.Visibility)
         if limit > 0 then rows.take limit.toNat else rows)
    GetOrgMembers := fun st orgID _ limit _ =>
      Except.ok
        (let rows := (st.members.filter (fun m => m.OrganizationID = orgID)).filterMap
           (fun m => (st.users.find? (fun u => u.ID = m.UserID)).map
             (fun u => { User := u, Role := m.MemberRole }))
         if limit > 0 then rows.take limit.toNat else rows)
    GetOrgMemberByOrgUserID := fun st orgID userID =>
      Except.ok (st.members.find? (fun m => m.OrganizationID = orgID && m.UserID = userID))
    GetOrgInvitationByOrgUserID := fun st orgID userID =>
      Except.ok
        (st.invitations.find? (fun i => i.OrganizationID = orgID && i.UserID = userID))
    InsertOrganization := fun st org => ({ st with orgs := st.orgs ++ [org] }, none)
    InsertOrganizationMember := fun st m => ({ st with members := st.members ++ [m] }, none)
    InsertOrUpdateOrganizationMember := fun st m =>
      ({ st with
         members :=
           if st.members.any (fun x => x.ID = m.ID) then
             st.members.map (fun x => if x.ID = m.ID then m else x)
           else st.members ++ [m] }, none)
    InsertProjectGroup := fun st pg => ({ st with groups := st.groups ++ [pg] }, none)
    DeleteOrgInvitation := fun st id =>
      ({ st with invitations := st.invitations.filter (fun i => i.ID ≠ id) }, none) }

/-- The user `alice`. -/
def alice : types.User := { ID := "u1", Name := "alice" }

/-- The user `bob`. -/
def bob : types.User := { ID := "u2", Name := "bob" }

/-- The organization `acme`. -/
def acme : types.Organization :=
  { ID := "o1", Name := "acme", Visibility := "public", CreatorUserID := "u1" }

/-- The organization `beta`. -/
def beta : types.Organization :=
  { ID := "o2", Name := "beta", Visibility := "public", CreatorUserID := "" }

/-- The organization `gamma`. -/
def gamma : types.Organization :=
  { ID := "o3", Name := "gamma", Visibility := "public", CreatorUserID := "" }

/-- The membership of `bob` in `acme`, with role member. -/
def bobInAcme : types.OrganizationMember :=
  { ID := "m2", OrganizationID := "o1", UserID := "u2", MemberRole := "member" }

/-- The invitation of `bob` to `acme`, as owner. -/
def bobInvited : types.OrgInvitation :=
  { ID := "i1", UserID := "u2", OrganizationID := "o1", Role := "owner" }

/-- A store with three organizations, two users, `alice` owner of `acme`,
`bob` member of `acme`, and a pending invitation of `bob` to `acme`. -/
def memStore : MemStore :=
  { orgs := [acme, beta, gamma]
    users := [alice, bob]
    members := [{ ID := "m1", OrganizationID := "o1", UserID := "u1", MemberRole := "owner" },
                bobInAcme]
    invitations := [bobInvited]
    groups := []
    made := 0 }

/-- A transaction starting on `memStore`. -/
def memTx : action.Tx MemStore := { store := memStore, writes := [] }

/-- The invitation of `alice` to `beta`, as member. -/
def aliceInvited : types.OrgInvitation :=
  { ID := "i2", UserID := "u1", OrganizationID := "o2", Role := "member" }

/-- The store `memStore` with, in addition, a pending invitation of `alice`
to `beta`, of which she is not a member. -/
def invitedStore : MemStore :=
  { memStore with invitations := [bobInvited, aliceInvited] }

/-- A transaction starting on `invitedStore`. -/
def invitedTx : action.Tx MemStore := { store := invitedStore, writes := [] }

/-- The store in memory with list queries that refuse a negative limit, as a
database does for `LIMIT` with a negative count. -/
def strictDeps : action.Deps MemStore :=
  { memDeps with
    GetOrgs := fun st start visibilities limit sortDirection =>
      if limit < 0 then Except.error (Error.driver "LIMIT must not be negative")
      else memDeps.GetOrgs st start visibilities limit sortDirection
    GetOrgMembers := fun st orgID start limit sortDirection =>
      if limit < 0 then Except.error (Error.driver "LIMIT must not be negative")
      else memDeps.GetOrgMembers st orgID start limit sortDirection }

/-- A store on which every store function fails. -/
def brokenDeps : action.Deps MemStore :=
  { memDeps with
    GetOrgByName := fun _ _ => Except.error (Error.driver "down")
    GetOrgByRef := fun _ _ => Except.error (Error.driver "down")
    GetUserByRef := fun _ _ => Except.error (Error.driver "down") }

end sample

/-! ## Vocabulary of the properties of `org.go` -/

/-- The error `err` is an API error of kind `kind`, possibly wrapped by
`errors.WithStack`. -/
def isAPIError (kind : util.ErrorKind) : Error → Bool
  | Error.api k _ _ => decide (k = kind)
  | Error.withStack cause => isAPIError kind cause
  | Error.driver _ => false

/-! ## Lemmas about texts and about the loops -/

theorem beginsWith_append (p r : String) : beginsWith p (p ++ r) = true := by
  simp [beginsWith, String.toList]

theorem endsWith_append (r p : String) : endsWith p (r ++ p) = true := by
  simp [endsWith, String.toList]

namespace gen

theorem foldl_columnDefStep (fields : List sqlg.ObjectField) (acc : List String) :
    fields.foldl columnDefStep acc = acc ++ fields.map columnDef := by
  induction fields generalizing acc with
  | nil => simp
  | cons f fs ih =>
    have hstep : columnDefStep acc f = acc ++ [columnDef f] := by
      cases hn : f.Nullable <;> cases hu : f.Unique <;>
        simp [columnDefStep, columnDef, hn, hu]
    simp only [List.foldl_cons, List.map_cons, hstep, ih]
    simp

theorem foldl_tableStep (objectsInfo : List sqlg.ObjectInfo) (data : DDLData) :
    objectsInfo.foldl tableStep data =
      { data with
        TableDefs := data.TableDefs ++ objectsInfo.map genTableDef
        IndexDefs := data.IndexDefs ++ objectsInfo.flatMap (fun oi => oi.Indexes) } := by
  induction objectsInfo generalizing data with
  | nil => simp
  | cons oi ois ih =>
    simp only [List.foldl_cons, ih, tableStep, List.map_cons, List.flatMap_cons]
    simp

theorem genDDLData_TableDefs (deps : Deps) (gd : genData) (dbType : sql.DBType) :
    (genDDLData deps gd dbType).TableDefs =
      (deps.PopulateObjectsInfo (prependMetaFields deps gd) dbType).map genTableDef := by
  simp [genDDLData, foldl_tableStep]

theorem genDDLData_IndexDefs (deps : Deps) (gd : genData) (dbType : sql.DBType) :
    (genDDLData deps gd dbType).IndexDefs =
      (deps.PopulateObjectsInfo (prependMetaFields deps gd) dbType).flatMap
        (fun oi => oi.Indexes) := by
  simp [genDDLData, foldl_tableStep]

theorem prependMetaFields_eq (deps : Deps) (gd : genData) :
    prependMetaFields deps gd =
      gd.ObjectsInfo.map (fun oi => { oi with Fields := deps.objectMetaFields ++ oi.Fields }) := by
  have h : ∀ (l acc : List sqlg.ObjectInfo),
      l.foldl (fun objectsInfo oi =>
        objectsInfo ++ [{ oi with Fields := deps.objectMetaFields ++ oi.Fields }]) acc =
      acc ++ l.map (fun oi => { oi with Fields := deps.objectMetaFields ++ oi.Fields }) := by
    intro l
    induction l with
    | nil => simp
    | cons a l ih => intro acc; simp [ih]
  simpa [prependMetaFields] using h gd.ObjectsInfo []

theorem genTableDef_ColumnDefs (oi : sqlg.ObjectInfo) :
    (genTableDef oi).ColumnDefs = oi.Fields.map columnDef := by
  simp [genTableDef, foldl_columnDefStep]

theorem sep_append_Join (cs : List String) (h : cs ≠ []) :
    ", " ++ strings.Join cs ", " = clauseTail cs := by
  induction cs with
  | nil => exact absurd rfl h
  | cons c cs ih =>
    cases cs with
    | nil => simp [strings.Join, clauseTail]
    | cons c2 cs2 =>
      have ih2 := ih (by simp)
      simp only [strings.Join, clauseTail] at ih2 ⊢
      rw [← ih2]
      simp [String.append_assoc]

theorem genTableDef_DDL (oi : sqlg.ObjectInfo) :
    (genTableDef oi).DDL =
      "create table if not exists " ++ oi.Table ++ " ("
        ++ strings.Join (oi.Fields.map columnDef) ", " ++ ", PRIMARY KEY (id)"
        ++ clauseTail oi.Constraints ++ ")" := by
  cases hc : oi.Constraints with
  | nil => simp [genTableDef, foldl_columnDefStep, hc, clauseTail]
  | cons c cs =>
    have h := sep_append_Join (c :: cs) (by simp)
    simp only [genTableDef, foldl_columnDefStep, hc, List.nil_append, List.length_cons,
      gt_iff_lt, Nat.zero_lt_succ, if_true, String.append_assoc]
    rw [← String.append_assoc ", " (strings.Join (c :: cs) ", ") ")", h]

end gen

namespace db

theorem execStmts_run (stmts : List String) (tx : sql.Tx) :
    (execStmts stmts tx).1.run = tx.run := by
  induction stmts generalizing tx with
  | nil => rfl
  | cons s rest ih =>
    cases h : tx.run s with
    | none => simp [execStmts, sql.Tx.Exec, h, ih]
    | some e => simp [execStmts, sql.Tx.Exec, h]

theorem execStmts_all_ok (stmts : List String) (tx : sql.Tx)
    (h : ∀ s ∈ stmts, tx.run s = none) :
    execStmts stmts tx = ({ tx with executed := tx.executed ++ stmts }, none) := by
  induction stmts generalizing tx with
  | nil => simp [execStmts]
  | cons s rest ih =>
    have hs : tx.run s = none := h s (by simp)
    have hr : ∀ x ∈ rest, tx.run x = none := fun x hx => h x (by simp [hx])
    simp only [execStmts, sql.Tx.Exec, hs]
    rw [ih { run := tx.run, executed := tx.executed ++ [s] } hr]
    simp

theorem execStmts_first_failure (pre : List String) (s : String) (post : List String)
    (e : Error) (tx : sql.Tx) (hpre : ∀ x ∈ pre, tx.run x = none) (hs : tx.run s = some e) :
    execStmts (pre ++ s :: post) tx =
      ({ tx with executed := tx.executed ++ (pre ++ [s]) }, some (errors.WithStack e)) := by
  induction pre generalizing tx with
  | nil => simp [execStmts, sql.Tx.Exec, hs]
  | cons p pre ih =>
    have hp : tx.run p = none := hpre p (by simp)
    have hr : ∀ x ∈ pre, tx.run x = none := fun x hx => hpre x (by simp [hx])
    rw [List.cons_append]
    simp only [execStmts, sql.Tx.Exec, hp]
    rw [ih { run := tx.run, executed := tx.executed ++ [p] } hr hs]
    simp

theorem execStmts_none_imp (stmts : List String) (tx : sql.Tx)
    (h : (execStmts stmts tx).2 = none) : ∀ s ∈ stmts, tx.run s = none := by
  induction stmts generalizing tx with
  | nil => simp
  | cons s rest ih =>
    cases hs : tx.run s with
    | some e => simp [execStmts, sql.Tx.Exec, hs] at h
    | none =>
      simp only [execStmts, sql.Tx.Exec, hs] at h
      have := ih _ h
      intro x hx
      rcases List.mem_cons.mp hx with rfl | hx
      · exact hs
      · exact this x hx

theorem execStmts_contract (stmts : List String) (tx : sql.Tx) :
    StopsAtFirstFailure stmts tx (execStmts stmts tx) := by
  refine ⟨execStmts_run stmts tx, ⟨execStmts_none_imp stmts tx, ?_⟩, ?_, ?_⟩
  · intro h; rw [execStmts_all_ok stmts tx h]
  · intro h
    rw [execStmts_all_ok stmts tx (execStmts_none_imp stmts tx h)]
  · intro pre s post e hst hpre hs
    subst hst
    rw [execStmts_first_failure pre s post e tx hpre hs]
    exact ⟨rfl, rfl⟩

end db

/-! ## C1: position of the primary-key clause -/

set_option maxRecDepth 100000 in
/-- C1, counterexample: for the resolved postgres model of the notification
service the two tables without constraints end in `PRIMARY KEY (id))`, but the
statement of `commitstatusdelivery`, which declares a foreign key, does not:
there the foreign-key clause follows the primary-key clause and is the last
clause before the closing parenthesis. -/
theorem primary_key_last_counterexample :
    (gen.genDDLData (sample.resolvedDeps sql.Postgres) (sample.model sql.Postgres)
        sql.Postgres).TableDefs.map
      (fun td => (td.Table, td.ConstraintDefs, endsWith "PRIMARY KEY (id))" td.DDL,
        endsWith ", PRIMARY KEY (id), foreign key (commit_status_id) references commitstatus(id))" td.DDL))
    = [("lastruneventsequence", [], true, false),
       ("commitstatus", [], true, false),
       ("commitstatusdelivery",
         ["foreign key (commit_status_id) references commitstatus(id)"], false, true)] := by
  decide

/-- C1, amended: in every CREATE TABLE statement built by `genDDLData` the
clause `PRIMARY KEY (id)` directly follows the comma-separated column
definitions; the entity-declared constraint clauses come after it, each
preceded by `, `, and then the closing parenthesis. The constraint clauses of
a table definition are those of its entity, and a statement of an entity
without constraints ends in `, PRIMARY KEY (id))`. -/
theorem genDDLData_primary_key_follows_columns (deps : gen.Deps) (gd : gen.genData)
    (dbType : sql.DBType) :
    (gen.genDDLData deps gd dbType).TableDefs.map (fun td => td.DDL) =
      (gen.genDDLData deps gd dbType).TableDefs.map (fun td =>
        "create table if not exists " ++ td.Table ++ " ("
          ++ strings.Join td.ColumnDefs ", " ++ ", PRIMARY KEY (id)"
          ++ clauseTail td.ConstraintDefs ++ ")") ∧
    (gen.genDDLData deps gd dbType).TableDefs.map (fun td => td.ConstraintDefs) =
      (deps.PopulateObjectsInfo (gen.prependMetaFields deps gd) dbType).map
        (fun oi => oi.Constraints) ∧
    ((gen.genDDLData deps gd dbType).TableDefs.filter
        (fun td => td.ConstraintDefs.isEmpty)).all
      (fun td => endsWith ", PRIMARY KEY (id))" td.DDL) = true := by
  refine ⟨?_, ?_, ?_⟩
  · rw [gen.genDDLData_TableDefs, List.map_map, List.map_map]
    apply List.map_congr_left
    intro oi _
    simp only [Function.comp, gen.genTableDef_DDL]
    simp [gen.genTableDef, gen.foldl_columnDefStep]
  · rw [gen.genDDLData_TableDefs, List.map_map]
    apply List.map_congr_left
    intro oi _
    simp [gen.genTableDef]
  · rw [gen.genDDLData_TableDefs, List.all_eq_true]
    intro td htd
    obtain ⟨hmem, hempty⟩ := List.mem_filter.mp htd
    obtain ⟨oi, _, rfl⟩ := List.mem_map.mp hmem
    have hc : oi.Constraints = [] := by
      have h : (gen.genTableDef oi).ConstraintDefs = oi.Constraints := rfl
      rw [h] at hempty
      exact List.isEmpty_iff.mp hempty
    rw [gen.genTableDef_DDL, hc]
    simp only [clauseTail, String.append_empty, String.append_assoc]
    rw [← String.append_assoc "create table if not exists ",
      ← String.append_assoc _ " (", ← String.append_assoc _ (strings.Join _ _)]
    exact endsWith_append _ _

/-! ## C2: dialects other than postgres and sqlite3 -/

/-- C2, counterexample: with the dialect tag `mysql`, which is neither
`postgres` nor `sqlite3`, both steps return the nil error, even on a database
where every statement would fail. -/
theorem migrate_unknown_dialect_counterexample :
    "mysql" ≠ sql.Postgres ∧ "mysql" ≠ sql.Sqlite3 ∧
    (db.migrateV2 { sdbType := "mysql" } sample.failingTx).2 = none ∧
    (db.migrateV3 { sdbType := "mysql" } sample.failingTx).2 = none := by
  refine ⟨by decide, by decide, ?_, ?_⟩
  · simp [db.migrateV2, db.migrateV2_stmts, sql.Postgres, sql.Sqlite3, db.execStmts]
  · simp [db.migrateV3, db.migrateV3_stmts, sql.Postgres, sql.Sqlite3, db.execStmts]

/-- C2, amended: for every dialect tag other than `postgres` and `sqlite3`,
`migrateV2` and `migrateV3` execute no statement, leave the transaction as it
was and return the nil error. -/
theorem migrate_unknown_dialect_is_noop (d : db.DB) (tx : sql.Tx)
    (hp : d.sdbType ≠ sql.Postgres) (hs : d.sdbType ≠ sql.Sqlite3) :
    db.migrateV2 d tx = (tx, none) ∧ db.migrateV3 d tx = (tx, none) := by
  simp [db.migrateV2, db.migrateV2_stmts, db.migrateV3, db.migrateV3_stmts, hp, hs,
    db.execStmts]

/-- C2, witness: the amended statement at the dialect tag `mysql`. -/
theorem migrate_unknown_dialect_is_noop_witness :
    db.migrateV2 { sdbType := "mysql" } sample.failingTx = (sample.failingTx, none) ∧
    db.migrateV3 { sdbType := "mysql" } sample.failingTx = (sample.failingTx, none) :=
  migrate_unknown_dialect_is_noop { sdbType := "mysql" } sample.failingTx
    (by decide) (by decide)

/-! ## C3: a step stops at the first failing statement -/

/-- C3: each of `migrateV2` and `migrateV3` runs the statement list selected
for the dialect in list order and stops at the first failing statement: the
result is nil exactly when every statement succeeds (then the whole list was
executed), and when a statement is the first to fail, the statements up to it
and no later one were executed and the result is that statement's error
wrapped by `errors.WithStack`. For `postgres` and `sqlite3` the selected lists
are the hard-coded `ddlPostgres` and `ddlSqlite3`. -/
theorem migrate_stops_at_first_failure (d : db.DB) (tx : sql.Tx) :
    StopsAtFirstFailure (db.migrateV2_stmts d.sdbType) tx (db.migrateV2 d tx) ∧
    StopsAtFirstFailure (db.migrateV3_stmts d.sdbType) tx (db.migrateV3 d tx) ∧
    db.migrateV2_stmts sql.Postgres = db.migrateV2_ddlPostgres ∧
    db.migrateV2_stmts sql.Sqlite3 = db.migrateV2_ddlSqlite3 ∧
    db.migrateV3_stmts sql.Postgres = db.migrateV3_ddlPostgres ∧
    db.migrateV3_stmts sql.Sqlite3 = db.migrateV3_ddlSqlite3 :=
  ⟨db.execStmts_contract _ tx, db.execStmts_contract _ tx,
    by simp [db.migrateV2_stmts], by simp [db.migrateV2_stmts, sql.Postgres, sql.Sqlite3],
    by simp [db.migrateV3_stmts], by simp [db.migrateV3_stmts, sql.Postgres, sql.Sqlite3]⟩

set_option maxRecDepth 100000 in
/-- C3, instance: on a postgres database where only the index statement
fails, `migrateV3` executes its three statements in order and returns the
wrapped error of the index statement. -/
theorem migrate_stops_at_first_failure_witness :
    (db.migrateV3 { sdbType := sql.Postgres } sample.failOnIndexTx).1.executed =
      db.migrateV3_ddlPostgres ∧
    (db.migrateV3 { sdbType := sql.Postgres } sample.failOnIndexTx).2 =
      some (errors.WithStack (Error.driver "index")) := by
  have h := (migrate_stops_at_first_failure { sdbType := sql.Postgres }
    sample.failOnIndexTx).2.1.2.2.2
    (db.migrateV3_ddlPostgres.take 2)
    "create index if not exists commitstatusdelivery_sequence_idx on commitstatusdelivery(sequence)"
    [] (Error.driver "index") (by decide) (by decide) (by decide)
  exact ⟨by rw [h.1]; decide, h.2⟩

/-! ## C4: sequence descriptors -/

namespace gen

theorem foldl_genericFieldStep (oi : sqlg.ObjectInfo) (fields : List sqlg.ObjectField)
    (st : List DDLDataTableSequence × List DDLGenericDataColInfo) :
    (fields.foldl (genericFieldStep oi) st).1 =
      st.1 ++ (fields.filter (fun f => f.Sequence)).map (sequenceOf oi) := by
  induction fields generalizing st with
  | nil => simp
  | cons f fs ih =>
    rw [List.foldl_cons, ih]
    cases hq : f.Sequence <;> simp [genericFieldStep, sequenceOf, hq]

theorem foldl_genericTableStep (objectsInfo : List sqlg.ObjectInfo) (data : DDLGenericData) :
    (objectsInfo.foldl genericTableStep data).Sequences =
      data.Sequences ++ objectsInfo.flatMap sequencesOf := by
  induction objectsInfo generalizing data with
  | nil => simp
  | cons oi ois ih =>
    rw [List.foldl_cons, ih]
    simp [genericTableStep, foldl_genericFieldStep, sequencesOf]

end gen

/-- C4: the `Sequences` list of `genDDLGenericData` is, entity after entity of
the resolved object model and field after field within an entity, one
descriptor for every field whose `Sequence` flag is set and none for the
others; the descriptor has the entity's table as `TableName`, the field's
column name as `ColName` and `TableName_ColName_seq` as `Name`. With
`PopulateObjectsInfo` keeping entities and fields in place, that order is the
declaration order of the object model, metadata fields first. -/
theorem genDDLGenericData_Sequences (deps : gen.Deps) (a : Adapter)
    (metaFields : List sqlg.ObjectField) (gd : gen.genData) :
    (gen.genDDLGenericData deps gd).Sequences =
      (deps.PopulateObjectsInfo (gen.prependMetaFields deps gd) "").flatMap
        (fun oi => (oi.Fields.filter (fun f => f.Sequence)).map (fun f =>
          { Name := oi.Table ++ "_" ++ f.ColName ++ "_seq", TableName := oi.Table,
            ColName := f.ColName })) ∧
    (gen.genDDLGenericData deps gd).Sequences.map (fun sq => sq.Name) =
      (gen.genDDLGenericData deps gd).Sequences.map
        (fun sq => sq.TableName ++ "_" ++ sq.ColName ++ "_seq") ∧
    (gen.genDDLGenericData (adapterDeps a metaFields) gd).Sequences =
      gd.ObjectsInfo.flatMap (fun oi =>
        (((metaFields ++ oi.Fields).map (a.resolveField "")).filter
          (fun f => f.Sequence)).map (fun f =>
            { Name := a.tableName { oi with Fields := metaFields ++ oi.Fields }
                ++ "_" ++ f.ColName ++ "_seq",
              TableName := a.tableName { oi with Fields := metaFields ++ oi.Fields },
              ColName := f.ColName })) := by
  have hgen : ∀ deps : gen.Deps, (gen.genDDLGenericData deps gd).Sequences =
      (deps.PopulateObjectsInfo (gen.prependMetaFields deps gd) "").flatMap sequencesOf := by
    intro deps
    simp [gen.genDDLGenericData, gen.foldl_genericTableStep]
  refine ⟨hgen deps, ?_, ?_⟩
  · rw [hgen deps]
    simp only [List.map_flatMap]
    congr 1
    funext oi
    simp [sequencesOf, sequenceOf, Function.comp_def]
  · rw [hgen, gen.prependMetaFields_eq]
    simp only [adapterDeps, sqlg.PopulateObjectsInfo, List.map_map, List.flatMap_map]
    rfl

/-! ## C5: column definitions -/

/-- C5: the `ColumnDefs` of every table definition built by `genDDLData` has
one entry per field of the resolved entity, in field order, and the entry is
`ColName SQLType`, then ` NOT NULL` exactly for a field that is not nullable,
then ` UNIQUE` exactly for a unique field. With `PopulateObjectsInfo` keeping
entities and fields in place, the fields are the metadata fields followed by
the entity's own fields, in declaration order. -/
theorem genDDLData_ColumnDefs (deps : gen.Deps) (a : Adapter)
    (metaFields : List sqlg.ObjectField) (gd : gen.genData) (dbType : sql.DBType) :
    (gen.genDDLData deps gd dbType).TableDefs.map (fun td => td.ColumnDefs) =
      (deps.PopulateObjectsInfo (gen.prependMetaFields deps gd) dbType).map
        (fun oi => oi.Fields.map (fun f =>
          f.ColName ++ " " ++ f.SQLType
            ++ (if f.Nullable then "" else " NOT NULL")
            ++ (if f.Unique then " UNIQUE" else ""))) ∧
    (gen.genDDLData (adapterDeps a metaFields) gd dbType).TableDefs.map
        (fun td => td.ColumnDefs) =
      gd.ObjectsInfo.map (fun oi =>
        (metaFields ++ oi.Fields).map (fun f => columnDef (a.resolveField dbType f))) ∧
    (∀ f : sqlg.ObjectField, columnDef f =
      f.ColName ++ " " ++ f.SQLType
        ++ (if f.Nullable then "" else " NOT NULL")
        ++ (if f.Unique then " UNIQUE" else "")) := by
  have hgen : ∀ deps : gen.Deps,
      (gen.genDDLData deps gd dbType).TableDefs.map (fun td => td.ColumnDefs) =
      (deps.PopulateObjectsInfo (gen.prependMetaFields deps gd) dbType).map
        (fun oi => oi.Fields.map columnDef) := by
    intro deps
    rw [gen.genDDLData_TableDefs, List.map_map]
    apply List.map_congr_left
    intro oi _
    simp [gen.genTableDef_ColumnDefs]
  refine ⟨hgen deps, ?_, fun _ => rfl⟩
  rw [hgen, gen.prependMetaFields_eq]
  simp [adapterDeps, sqlg.PopulateObjectsInfo, List.map_map, Function.comp_def]

/-! ## C6: the two dialects of a step differ in type tokens only -/

set_option maxRecDepth 100000 in
/-- C6: for `migrateV2` and for `migrateV3` the postgres and the sqlite3
statement lists have the same length, and replacing `timestamptz` by
`timestamp` and `bigint generated by default as identity` by `integer` in each
postgres statement gives the sqlite3 statement at the same position. -/
theorem migrate_dialects_differ_in_type_tokens :
    db.migrateV2_ddlPostgres.length = db.migrateV2_ddlSqlite3.length ∧
    db.migrateV3_ddlPostgres.length = db.migrateV3_ddlSqlite3.length ∧
    db.migrateV2_ddlPostgres.map toSqlite3Spelling = db.migrateV2_ddlSqlite3 ∧
    db.migrateV3_ddlPostgres.map toSqlite3Spelling = db.migrateV3_ddlSqlite3 := by
  refine ⟨rfl, rfl, ?_, ?_⟩ <;> decide

/-! ## C7: generated and hand-written statements agree -/

set_option maxRecDepth 100000 in
/-- C7: for postgres and for sqlite3, `genDDLData` run on the resolved
descriptions of `lastruneventsequence`, `commitstatus` and
`commitstatusdelivery` (the last with its foreign-key constraint) builds, in
this order, exactly the `create table` statement of `migrateV2` and the two
`create table` statements of `migrateV3` of that dialect. -/
theorem genDDLData_agrees_with_migrations :
    (gen.genDDLData (sample.resolvedDeps sql.Postgres) (sample.model sql.Postgres)
        sql.Postgres).TableDefs.map (fun td => td.DDL) =
      db.migrateV2_stmts sql.Postgres ++ (db.migrateV3_stmts sql.Postgres).take 2 ∧
    (gen.genDDLData (sample.resolvedDeps sql.Sqlite3) (sample.model sql.Sqlite3)
        sql.Sqlite3).TableDefs.map (fun td => td.DDL) =
      db.migrateV2_stmts sql.Sqlite3 ++ (db.migrateV3_stmts sql.Sqlite3).take 2 ∧
    (gen.genDDLData (sample.resolvedDeps sql.Postgres) (sample.model sql.Postgres)
        sql.Postgres).TableDefs.map (fun td => td.Table) =
      ["lastruneventsequence", "commitstatus", "commitstatusdelivery"] ∧
    (gen.genDDLData (sample.resolvedDeps sql.Sqlite3) (sample.model sql.Sqlite3)
        sql.Sqlite3).TableDefs.map (fun td => td.Table) =
      ["lastruneventsequence", "commitstatus", "commitstatusdelivery"] := by
  refine ⟨?_, ?_, ?_, ?_⟩ <;> decide

/-! ## C8: every statement is conditional -/

set_option maxRecDepth 100000 in
/-- C8: every statement of the postgres and sqlite3 lists of `migrateV2` and
`migrateV3` begins with `create table if not exists ` or with
`create index if not exists `, and every CREATE TABLE statement built by
`genDDLData` begins with `create table if not exists ` followed by the name of
its table. -/
theorem statements_are_conditional (deps : gen.Deps) (gd : gen.genData)
    (dbType : sql.DBType) :
    (db.migrateV2_ddlPostgres ++ db.migrateV2_ddlSqlite3 ++ db.migrateV3_ddlPostgres
        ++ db.migrateV3_ddlSqlite3).all
      (fun stmt => beginsWith "create table if not exists " stmt
        || beginsWith "create index if not exists " stmt) = true ∧
    (gen.genDDLData deps gd dbType).TableDefs.all
      (fun td => beginsWith ("create table if not exists " ++ td.Table) td.DDL) = true := by
  refine ⟨by decide, ?_⟩
  rw [gen.genDDLData_TableDefs, List.all_eq_true]
  intro td htd
  obtain ⟨oi, _, rfl⟩ := List.mem_map.mp htd
  rw [gen.genTableDef_DDL]
  have hT : (gen.genTableDef oi).Table = oi.Table := rfl
  rw [hT]
  simp only [String.append_assoc]
  rw [← String.append_assoc "create table if not exists " oi.Table]
  exact beginsWith_append _ _

/-! ## C9: the registry and the order of creation -/

set_option maxRecDepth 100000 in
/-- C9: the registry of `MigrateFuncs` has exactly the keys 2 and 3, a
non-empty strictly increasing list, with `migrateV2` at 2 and `migrateV3` at
3; for both dialects the list of `migrateV2` is the single statement creating
`lastruneventsequence`, and the list of `migrateV3` creates `commitstatus`,
then `commitstatusdelivery` with its foreign key to `commitstatus(id)`, then
the index on `commitstatusdelivery(sequence)`. -/
theorem MigrateFuncs_registry (d : db.DB) :
    (db.MigrateFuncs d).map Prod.fst = [2, 3] ∧
    (db.MigrateFuncs d).map Prod.fst ≠ [] ∧
    List.Pairwise (fun m n => m < n) ((db.MigrateFuncs d).map Prod.fst) ∧
    (db.MigrateFuncs d).lookup 2 = some (db.migrateV2 d) ∧
    (db.MigrateFuncs d).lookup 3 = some (db.migrateV3 d) ∧
    CreatesOnlyLastRunEventSequence (db.migrateV2_stmts sql.Postgres) ∧
    CreatesOnlyLastRunEventSequence (db.migrateV2_stmts sql.Sqlite3) ∧
    CreatesCommitStatusTables (db.migrateV3_stmts sql.Postgres) ∧
    CreatesCommitStatusTables (db.migrateV3_stmts sql.Sqlite3) := by
  refine ⟨rfl, by simp [db.MigrateFuncs], by simp [db.MigrateFuncs], rfl, rfl,
    ⟨_, rfl, by decide⟩, ⟨_, rfl, by decide⟩,
    ⟨_, _, _, rfl, by decide, by decide, by decide, by decide, by decide⟩,
    ⟨_, _, _, rfl, by decide, by decide, by decide, by decide, by decide⟩⟩

/-! ## C10: tables, indexes and their order -/

/-- C10: `genDDLData` builds one table definition per entity of the resolved
object model, in order, and its `IndexDefs` is the concatenation of the
entities' index definitions in that order; with `PopulateObjectsInfo` keeping
entities in place these are the entities of the object model in declaration
order. In the statement list written by `ddlTemplate` the CREATE TABLE
statements fill the first positions, one per table definition, and the index
statements all the positions after them. -/
theorem genDDLData_tables_then_indexes (deps : gen.Deps) (a : Adapter)
    (metaFields : List sqlg.ObjectField) (gd : gen.genData) (dbType : sql.DBType) :
    (gen.genDDLData deps gd dbType).TableDefs.map (fun td => td.Table) =
      (deps.PopulateObjectsInfo (gen.prependMetaFields deps gd) dbType).map
        (fun oi => oi.Table) ∧
    (gen.genDDLData deps gd dbType).IndexDefs =
      (deps.PopulateObjectsInfo (gen.prependMetaFields deps gd) dbType).flatMap
        (fun oi => oi.Indexes) ∧
    (gen.genDDLData (adapterDeps a metaFields) gd dbType).TableDefs.length =
      gd.ObjectsInfo.length ∧
    (gen.genDDLData (adapterDeps a metaFields) gd dbType).TableDefs.map (fun td => td.Table) =
      gd.ObjectsInfo.map (fun oi =>
        a.tableName { oi with Fields := metaFields ++ oi.Fields }) ∧
    (gen.genDDLData (adapterDeps a metaFields) gd dbType).IndexDefs =
      gd.ObjectsInfo.flatMap (fun oi => oi.Indexes) ∧
    (gen.ddlTemplate_statements (gen.genDDLData deps gd dbType)).take
        (gen.genDDLData deps gd dbType).TableDefs.length =
      (gen.genDDLData deps gd dbType).TableDefs.map (fun td => td.DDL) ∧
    (gen.ddlTemplate_statements (gen.genDDLData deps gd dbType)).drop
        (gen.genDDLData deps gd dbType).TableDefs.length =
      (gen.genDDLData deps gd dbType).IndexDefs := by
  have hT : ∀ deps : gen.Deps,
      (gen.genDDLData deps gd dbType).TableDefs.map (fun td => td.Table) =
      (deps.PopulateObjectsInfo (gen.prependMetaFields deps gd) dbType).map
        (fun oi => oi.Table) := by
    intro deps
    rw [gen.genDDLData_TableDefs, List.map_map]
    apply List.map_congr_left
    intro oi _
    rfl
  refine ⟨hT deps, gen.genDDLData_IndexDefs deps gd dbType, ?_, ?_, ?_, ?_, ?_⟩
  · rw [gen.genDDLData_TableDefs, gen.prependMetaFields_eq]
    simp [adapterDeps, sqlg.PopulateObjectsInfo]
  · rw [hT, gen.prependMetaFields_eq]
    simp [adapterDeps, sqlg.PopulateObjectsInfo, Function.comp_def]
  · rw [gen.genDDLData_IndexDefs, gen.prependMetaFields_eq]
    simp [adapterDeps, sqlg.PopulateObjectsInfo, List.flatMap_map, Function.comp_def]
  · simp [gen.ddlTemplate_statements]
  · simp [gen.ddlTemplate_statements]

/-! ## Lemmas about `org.go` -/

namespace action

theorem Do_ok {σ α : Type} (tx tx1 : Tx σ) (f : Tx σ → Tx σ × Except Error α) (a : α)
    (h : Do tx f = (tx1, Except.ok a)) : f tx = (tx1, Except.ok a) := by
  rcases hf : f tx with ⟨t, r⟩
  cases r with
  | error e => simp [Do, hf] at h
  | ok b => simpa [Do, hf] using h

theorem Do_of_ok {σ α : Type} (tx tx1 : Tx σ) (f : Tx σ → Tx σ × Except Error α) (a : α)
    (h : f tx = (tx1, Except.ok a)) : Do tx f = (tx1, Except.ok a) := by
  simp [Do, h]

theorem Do_of_error {σ α : Type} (tx tx1 : Tx σ) (f : Tx σ → Tx σ × Except Error α)
    (e : Error) (h : f tx = (tx1, Except.error e)) : Do tx f = (tx, Except.error e) := by
  simp [Do, h]

theorem CreateOrg_addCreator_ok {σ : Type} (d : Deps σ) (org : types.Organization)
    (tx tx1 : Tx σ) (h : CreateOrg_addCreator d org tx = (tx1, none)) :
    ∃ m : types.OrganizationMember,
      m.OrganizationID = org.ID ∧ m.UserID = org.CreatorUserID ∧
      m.MemberRole = d.MemberRoleOwner ∧
      tx1.writes = tx.writes ++
        (if org.CreatorUserID ≠ "" then [Write.InsertOrganizationMember m] else []) := by
  unfold CreateOrg_addCreator at h
  by_cases hc : org.CreatorUserID = ""
  · simp only [hc, ne_eq, not_true_eq_false, if_false, Prod.mk.injEq] at h
    refine ⟨{ ID := "", OrganizationID := org.ID, UserID := org.CreatorUserID,
              MemberRole := d.MemberRoleOwner }, rfl, rfl, rfl, ?_⟩
    simp [hc, ← h.1]
  · simp only [ne_eq, hc, not_false_eq_true, if_true] at h
    refine ⟨{ (NewOrganizationMember d tx).2 with
              OrganizationID := org.ID, UserID := org.CreatorUserID,
              MemberRole := d.MemberRoleOwner }, rfl, rfl, rfl, ?_⟩
    simp only [ne_eq, hc, not_false_eq_true, if_true]
    rcases hi : InsertOrganizationMember d (NewOrganizationMember d tx).1
        { (NewOrganizationMember d tx).2 with
          OrganizationID := org.ID, UserID := org.CreatorUserID,
          MemberRole := d.MemberRoleOwner } with ⟨t, e⟩
    have hw := congrArg (fun p => p.1.writes) hi
    rw [hi] at h
    cases e with
    | some err => simp at h
    | none =>
      simp only [Prod.mk.injEq, and_true] at h
      rw [← h]
      exact hw.symm

theorem CreateOrg_addRootGroup_ok {σ : Type} (d : Deps σ) (org org1 : types.Organization)
    (tx tx1 : Tx σ) (h : CreateOrg_addRootGroup d org tx = (tx1, Except.ok org1)) :
    org1 = org ∧ ∃ pg : types.ProjectGroup,
      pg.Visibility = org.Visibility ∧
      pg.Parent = { Kind := d.ObjectKindOrg, ID := org.ID } ∧
      tx1.writes = tx.writes ++ [Write.InsertProjectGroup pg] := by
  unfold CreateOrg_addRootGroup at h
  simp only [] at h
  rcases hi : InsertProjectGroup d (NewProjectGroup d tx).1
      { (NewProjectGroup d tx).2 with
        Visibility := org.Visibility,
        Parent := { Kind := d.ObjectKindOrg, ID := org.ID } } with ⟨t, e⟩
  have hw := congrArg (fun p => p.1.writes) hi
  rw [hi] at h
  cases e with
  | some err => simp at h
  | none =>
    simp only [Prod.mk.injEq, Except.ok.injEq] at h
    refine ⟨h.2.symm, { (NewProjectGroup d tx).2 with
        Visibility := org.Visibility,
        Parent := { Kind := d.ObjectKindOrg, ID := org.ID } }, rfl, rfl, ?_⟩
    rw [← h.1]
    exact hw.symm

end action

namespace action

theorem CreateOrg_checkCreator_none {σ : Type} (d : Deps σ) (req : CreateOrgRequest)
    (tx : Tx σ) (h : CreateOrg_checkCreator d req tx = none) (hc : req.CreatorUserID ≠ "") :
    ∃ user, d.GetUserByRef tx.store req.CreatorUserID = Except.ok (some user) := by
  unfold CreateOrg_checkCreator at h
  simp only [hc, ne_eq, not_false_eq_true, if_true] at h
  rcases hu : d.GetUserByRef tx.store req.CreatorUserID with e | (_ | user)
  · simp [hu] at h
  · simp [hu] at h
  · exact ⟨user, rfl⟩

theorem CreateOrg_tx_ok {σ : Type} (d : Deps σ) (req : CreateOrgRequest)
    (tx tx1 : Tx σ) (org : types.Organization)
    (h : CreateOrg_tx d req tx = (tx1, Except.ok org)) :
    d.GetOrgByName tx.store req.Name = Except.ok none ∧
    CreateOrg_checkCreator d req tx = none ∧
    org.Name = req.Name ∧ org.Visibility = req.Visibility ∧
    org.CreatorUserID = req.CreatorUserID ∧
    ∃ (m : types.OrganizationMember) (pg : types.ProjectGroup),
      m.OrganizationID = org.ID ∧ m.UserID = req.CreatorUserID ∧
      m.MemberRole = d.MemberRoleOwner ∧
      pg.Visibility = org.Visibility ∧
      pg.Parent = { Kind := d.ObjectKindOrg, ID := org.ID } ∧
      tx1.writes = tx.writes ++
        ([Write.InsertOrganization org]
          ++ (if req.CreatorUserID ≠ "" then [Write.InsertOrganizationMember m] else [])
          ++ [Write.InsertProjectGroup pg]) := by
  unfold CreateOrg_tx at h
  rcases hn : d.GetOrgByName tx.store req.Name with e | (_ | o)
  · simp [hn] at h
  swap
  · simp [hn] at h
  rcases hcc : CreateOrg_checkCreator d req tx with _ | e
  swap
  · simp [hn, hcc] at h
  simp only [hn, hcc] at h
  rcases hi : InsertOrganization d (NewOrganization d tx).1
      { (NewOrganization d tx).2 with
        Name := req.Name, Visibility := req.Visibility,
        CreatorUserID := req.CreatorUserID } with ⟨t1, e1⟩
  have hw1 := congrArg (fun p => p.1.writes) hi
  simp only [InsertOrganization, NewOrganization] at hw1
  rw [hi] at h
  cases e1 with
  | some err => simp at h
  | none =>
    simp only [] at h
    rcases hm : CreateOrg_addCreator d
        { (NewOrganization d tx).2 with
          Name := req.Name, Visibility := req.Visibility,
          CreatorUserID := req.CreatorUserID } t1 with ⟨t2, e2⟩
    rw [hm] at h
    cases e2 with
    | some err => simp at h
    | none =>
      simp only [] at h
      obtain ⟨m, hm1, hm2, hm3, hmw⟩ := CreateOrg_addCreator_ok d _ t1 t2 hm
      obtain ⟨horg, pg, hp1, hp2, hpw⟩ := CreateOrg_addRootGroup_ok d _ org t2 tx1 h
      subst horg
      refine ⟨rfl, rfl, rfl, rfl, rfl, m, pg, hm1, hm2, hm3, hp1, hp2, ?_⟩
      rw [hpw, hmw, ← hw1]
      simp [NewOrganization]

end action

/-! ## C11: what `CreateOrg` writes -/

/-- C11: when `CreateOrg` succeeds, the request passed validation, its name
was not taken and its creator, if given, exists; the returned organization
has the requested name, visibility and creator id; and the writes of the
call are exactly: the insert of that organization, then, if and only if
`CreatorUserID` is not empty, the insert of one member with the
organization's id, the requested creator id and role owner, then the insert
of one project group with the organization's visibility and parent
`(org, organization id)`. When the name is already used by an organization,
`CreateOrg` fails with a bad-request error, no write is handed to the store
and the transaction is as before. -/
theorem CreateOrg_writes {σ : Type} (d : action.Deps σ) (req : action.CreateOrgRequest)
    (tx : action.Tx σ) :
    (∀ (tx1 : action.Tx σ) (org : types.Organization),
      action.CreateOrg d req tx = (tx1, Except.ok org) →
        (req.Name ≠ "" ∧ d.ValidateName req.Name = true ∧
          d.IsValidVisibility req.Visibility = true) ∧
        d.GetOrgByName tx.store req.Name = Except.ok none ∧
        (req.CreatorUserID ≠ "" →
          ∃ user, d.GetUserByRef tx.store req.CreatorUserID = Except.ok (some user)) ∧
        org.Name = req.Name ∧ org.Visibility = req.Visibility ∧
        org.CreatorUserID = req.CreatorUserID ∧
        ∃ (m : types.OrganizationMember) (pg : types.ProjectGroup),
          m.OrganizationID = org.ID ∧ m.UserID = req.CreatorUserID ∧
          m.MemberRole = d.MemberRoleOwner ∧
          pg.Visibility = org.Visibility ∧
          pg.Parent = { Kind := d.ObjectKindOrg, ID := org.ID } ∧
          tx1.writes = tx.writes ++
            ([action.Write.InsertOrganization org]
              ++ (if req.CreatorUserID ≠ ""
                  then [action.Write.InsertOrganizationMember m] else [])
              ++ [action.Write.InsertProjectGroup pg])) ∧
    (∀ o : types.Organization, d.GetOrgByName tx.store req.Name = Except.ok (some o) →
      ∃ err : Error,
        action.CreateOrg d req tx = (tx, Except.error err) ∧
        isAPIError util.ErrorKind.ErrBadRequest err = true ∧
        (action.CreateOrg_tx d req tx).1 = tx) := by
  constructor
  · intro tx1 org h
    unfold action.CreateOrg at h
    by_cases h1 : req.Name = ""
    · simp [h1] at h
    by_cases h2 : d.ValidateName req.Name = true
    swap
    · simp [h1, h2] at h
    by_cases h3 : d.IsValidVisibility req.Visibility = true
    swap
    · simp [h1, h2, h3] at h
    simp only [h1, h2, h3, if_false, Bool.not_true, Bool.false_eq_true] at h
    rcases hd : action.Do tx (action.CreateOrg_tx d req) with ⟨t, r⟩
    rw [hd] at h
    cases r with
    | error e => simp at h
    | ok org1 =>
      simp only [Prod.mk.injEq, Except.ok.injEq] at h
      obtain ⟨rfl, rfl⟩ := h
      have hc := action.Do_ok tx t _ org1 hd
      obtain ⟨hn, hcc, ha, hb, hcr, hex⟩ := action.CreateOrg_tx_ok d req tx t org1 hc
      exact ⟨⟨h1, h2, h3⟩, hn, action.CreateOrg_checkCreator_none d req tx hcc,
        ha, hb, hcr, hex⟩
  · intro o ho
    have hclosure : action.CreateOrg_tx d req tx =
        (tx, Except.error (util.NewAPIError util.ErrorKind.ErrBadRequest
          ("org " ++ d.q o.Name ++ " already exists") "OrganizationAlreadyExists")) := by
      simp [action.CreateOrg_tx, ho]
    unfold action.CreateOrg
    by_cases h1 : req.Name = ""
    · exact ⟨util.NewAPIError util.ErrorKind.ErrBadRequest "organization name required"
        "InvalidOrganizationName", by simp only [h1, if_true], by decide, by rw [hclosure]⟩
    by_cases h2 : d.ValidateName req.Name = true
    swap
    · exact ⟨util.NewAPIError util.ErrorKind.ErrBadRequest
        ("invalid organization name " ++ d.q req.Name) "InvalidOrganizationName",
        by simp only [h1, h2, if_false, Bool.not_false, if_true],
        by simp [util.NewAPIError, isAPIError], by rw [hclosure]⟩
    by_cases h3 : d.IsValidVisibility req.Visibility = true
    swap
    · exact ⟨util.NewAPIError util.ErrorKind.ErrBadRequest
        "invalid organization visibility" "InvalidVisibility",
        by simp only [h1, h2, h3, if_false, Bool.not_false, Bool.not_true,
          Bool.false_eq_true, if_true], by decide, by rw [hclosure]⟩
    refine ⟨errors.WithStack (util.NewAPIError util.ErrorKind.ErrBadRequest
      ("org " ++ d.q o.Name ++ " already exists") "OrganizationAlreadyExists"),
      ?_, ?_, by rw [hclosure]⟩
    · simp only [h1, h2, h3, if_false, Bool.not_true, Bool.false_eq_true]
      rw [action.Do_of_error tx tx _ _ hclosure]
    · simp [errors.WithStack, util.NewAPIError, isAPIError]

/-- C11, instance: on the store in memory, creating the organization `delta`
with creator `u1` succeeds and writes the organization, the owner membership
of `u1` and the root project group, in this order. -/
theorem CreateOrg_writes_witness :
    ∃ (m : types.OrganizationMember) (pg : types.ProjectGroup),
      m.OrganizationID = "new-" ∧ m.UserID = "u1" ∧ m.MemberRole = "owner" ∧
      pg.Visibility = "private" ∧ pg.Parent = { Kind := "org", ID := "new-" } ∧
      (action.CreateOrg sample.memDeps
          { Name := "delta", Visibility := "private", CreatorUserID := "u1" }
          sample.memTx).1.writes =
        [action.Write.InsertOrganization
            { ID := "new-", Name := "delta", Visibility := "private",
              CreatorUserID := "u1" },
          action.Write.InsertOrganizationMember m,
          action.Write.InsertProjectGroup pg] := by
  obtain ⟨_, _, _, _, _, _, m, pg, h1, h2, h3, h4, h5, h6⟩ :=
    (CreateOrg_writes sample.memDeps
      { Name := "delta", Visibility := "private", CreatorUserID := "u1" }
      sample.memTx).1
      (action.CreateOrg sample.memDeps
        { Name := "delta", Visibility := "private", CreatorUserID := "u1" } sample.memTx).1
      { ID := "new-", Name := "delta", Visibility := "private", CreatorUserID := "u1" }
      (by rfl)
  exact ⟨m, pg, h1, h2, h3, h4, h5, h6⟩

namespace action

theorem AddOrgMember_write_ok {σ : Type} (d : Deps σ) (org : types.Organization)
    (user : types.User) (orgmember m : types.OrganizationMember) (tx tx1 : Tx σ)
    (h : AddOrgMember_write d org user orgmember tx = (tx1, Except.ok m)) :
    m = orgmember ∧
    (tx1.writes = tx.writes ++ [Write.InsertOrUpdateOrganizationMember orgmember] ∨
      ∃ inv : types.OrgInvitation,
        tx1.writes = tx.writes ++ [Write.InsertOrUpdateOrganizationMember orgmember,
          Write.DeleteOrgInvitation inv.ID]) := by
  unfold AddOrgMember_write at h
  rcases hi : InsertOrUpdateOrganizationMember d tx orgmember with ⟨t1, e1⟩
  have hw1 : t1.writes = tx.writes ++ [Write.InsertOrUpdateOrganizationMember orgmember] :=
    (congrArg (fun p => p.1.writes) hi).symm
  rw [hi] at h
  cases e1 with
  | some err => simp at h
  | none =>
    simp only [] at h
    rcases hg : d.GetOrgInvitationByOrgUserID t1.store org.ID user.ID with e | (_ | inv)
    · simp [hg] at h
    · simp only [hg, Prod.mk.injEq, Except.ok.injEq] at h
      exact ⟨h.2.symm, Or.inl (by rw [← h.1, hw1])⟩
    · simp only [hg] at h
      rcases hdel : DeleteOrgInvitation d t1 inv.ID with ⟨t2, e2⟩
      have hw2 : t2.writes = t1.writes ++ [Write.DeleteOrgInvitation inv.ID] :=
        (congrArg (fun p => p.1.writes) hdel).symm
      rw [hdel] at h
      cases e2 with
      | some err => simp at h
      | none =>
        simp only [Prod.mk.injEq, Except.ok.injEq] at h
        exact ⟨h.2.symm, Or.inr ⟨inv, by rw [← h.1, hw2, hw1]; simp⟩⟩

theorem AddOrgMember_ok {σ : Type} (d : Deps σ) (orgRef userRef : String)
    (role : types.MemberRole) (tx tx1 : Tx σ) (m : types.OrganizationMember)
    (h : AddOrgMember d orgRef userRef role tx = (tx1, Except.ok m)) :
    AddOrgMember_tx d orgRef userRef role tx = (tx1, Except.ok m) := by
  unfold AddOrgMember at h
  by_cases hr : d.IsValidMemberRole role = true
  swap
  · simp [hr] at h
  simp only [hr, Bool.not_true, Bool.false_eq_true, if_false] at h
  rcases hd : Do tx (AddOrgMember_tx d orgRef userRef role) with ⟨t, r⟩
  rw [hd] at h
  cases r with
  | error e => simp at h
  | ok m1 =>
    simp only [Prod.mk.injEq, Except.ok.injEq] at h
    obtain ⟨rfl, rfl⟩ := h
    exact Do_ok tx t _ m1 hd

theorem AddOrgMember_of_tx_ok {σ : Type} (d : Deps σ) (orgRef userRef : String)
    (role : types.MemberRole) (tx tx1 : Tx σ) (m : types.OrganizationMember)
    (hr : d.IsValidMemberRole role = true)
    (h : AddOrgMember_tx d orgRef userRef role tx = (tx1, Except.ok m)) :
    AddOrgMember d orgRef userRef role tx = (tx1, Except.ok m) := by
  unfold AddOrgMember
  simp only [hr, Bool.not_true, Bool.false_eq_true, if_false]
  rw [Do_of_ok tx tx1 _ m h]

theorem AddOrgMember_tx_same_role {σ : Type} (d : Deps σ) (orgRef userRef : String)
    (role : types.MemberRole) (tx : Tx σ) (org : types.Organization) (user : types.User)
    (m0 : types.OrganizationMember)
    (horg : d.GetOrgByRef tx.store orgRef = Except.ok (some org))
    (huser : d.GetUserByRef tx.store userRef = Except.ok (some user))
    (hm : d.GetOrgMemberByOrgUserID tx.store org.ID user.ID = Except.ok (some m0))
    (hsame : m0.MemberRole = role) :
    AddOrgMember_tx d orgRef userRef role tx = (tx, Except.ok m0) := by
  simp [AddOrgMember_tx, horg, huser, hm, hsame]

theorem AddOrgMember_write_produces {σ : Type} (d : Deps σ) (org : types.Organization)
    (user : types.User) (orgmember : types.OrganizationMember) (tx : Tx σ) (s1 : σ)
    (hi : d.InsertOrUpdateOrganizationMember tx.store orgmember = (s1, none)) :
    (d.GetOrgInvitationByOrgUserID s1 org.ID user.ID = Except.ok none →
      AddOrgMember_write d org user orgmember tx =
        ({ store := s1,
           writes := tx.writes ++ [Write.InsertOrUpdateOrganizationMember orgmember] },
          Except.ok orgmember)) ∧
    (∀ (inv : types.OrgInvitation) (s2 : σ),
      d.GetOrgInvitationByOrgUserID s1 org.ID user.ID = Except.ok (some inv) →
      d.DeleteOrgInvitation s1 inv.ID = (s2, none) →
      AddOrgMember_write d org user orgmember tx =
        ({ store := s2,
           writes := tx.writes ++ [Write.InsertOrUpdateOrganizationMember orgmember,
             Write.DeleteOrgInvitation inv.ID] },
          Except.ok orgmember)) := by
  constructor
  · intro hl
    simp [AddOrgMember_write, InsertOrUpdateOrganizationMember, hi, hl]
  · intro inv s2 hl hdel
    simp [AddOrgMember_write, InsertOrUpdateOrganizationMember, DeleteOrgInvitation, hi, hl,
      hdel]

end action

/-! ## C12: `AddOrgMember` adds or updates a member -/

/-- C12: for an invalid role `AddOrgMember` returns the bad-request error
without reading or writing the store. For a valid role and an organization
and a user that exist: a successful call returns a member with the requested
role and, the store returning memberships of the organization and the user it
is asked for, with the ids of the resolved organization and user; when no
membership existed, a new member with these ids and the role is written;
when one existed with another role, that membership with only its role
changed is written; the only other write is the deletion of an invitation;
when one existed with the same role, nothing is written. A second call with
the same arguments, on a store that resolves the organization and the user
as before and returns the membership of the first call, writes nothing.
The writes are produced: when no membership existed, or one with another
role, and the store accepts the member, the call succeeds and returns the
member, having written it and nothing else if the user has no invitation to
the organization, and having written it and then deleted the invitation if
there is one and the store accepts the deletion. -/
theorem AddOrgMember_adds_or_updates {σ : Type} (d : action.Deps σ)
    (orgRef userRef : String) (role : types.MemberRole) (tx : action.Tx σ) :
    (d.IsValidMemberRole role = false →
      action.AddOrgMember d orgRef userRef role tx =
        (tx, Except.error (util.NewAPIError util.ErrorKind.ErrBadRequest
          ("invalid role " ++ d.q role) "InvalidRole"))) ∧
    (∀ (org : types.Organization) (user : types.User),
      d.IsValidMemberRole role = true →
      d.GetOrgByRef tx.store orgRef = Except.ok (some org) →
      d.GetUserByRef tx.store userRef = Except.ok (some user) →
      (∀ (tx1 : action.Tx σ) (m : types.OrganizationMember),
        action.AddOrgMember d orgRef userRef role tx = (tx1, Except.ok m) →
          m.MemberRole = role ∧
          ((∀ m0, d.GetOrgMemberByOrgUserID tx.store org.ID user.ID = Except.ok (some m0) →
              m0.OrganizationID = org.ID ∧ m0.UserID = user.ID) →
            m.OrganizationID = org.ID ∧ m.UserID = user.ID)) ∧
      (d.GetOrgMemberByOrgUserID tx.store org.ID user.ID = Except.ok none →
        ∀ (tx1 : action.Tx σ) (m : types.OrganizationMember),
          action.AddOrgMember d orgRef userRef role tx = (tx1, Except.ok m) →
            m = { (d.NewOrganizationMember tx.store).2 with
                  OrganizationID := org.ID, UserID := user.ID, MemberRole := role } ∧
            (tx1.writes = tx.writes ++ [action.Write.InsertOrUpdateOrganizationMember m] ∨
              ∃ inv : types.OrgInvitation,
                tx1.writes = tx.writes ++ [action.Write.InsertOrUpdateOrganizationMember m,
                  action.Write.DeleteOrgInvitation inv.ID])) ∧
      (∀ m0 : types.OrganizationMember,
        d.GetOrgMemberByOrgUserID tx.store org.ID user.ID = Except.ok (some m0) →
        m0.MemberRole ≠ role →
        ∀ (tx1 : action.Tx σ) (m : types.OrganizationMember),
          action.AddOrgMember d orgRef userRef role tx = (tx1, Except.ok m) →
            m = { m0 with MemberRole := role } ∧
            (tx1.writes = tx.writes ++ [action.Write.InsertOrUpdateOrganizationMember m] ∨
              ∃ inv : types.OrgInvitation,
                tx1.writes = tx.writes ++ [action.Write.InsertOrUpdateOrganizationMember m,
                  action.Write.DeleteOrgInvitation inv.ID])) ∧
      (∀ m0 : types.OrganizationMember,
        d.GetOrgMemberByOrgUserID tx.store org.ID user.ID = Except.ok (some m0) →
        m0.MemberRole = role →
          action.AddOrgMember d orgRef userRef role tx = (tx, Except.ok m0)) ∧
      (∀ (tx1 : action.Tx σ) (m : types.OrganizationMember),
        action.AddOrgMember d orgRef userRef role tx = (tx1, Except.ok m) →
        d.GetOrgByRef tx1.store orgRef = Except.ok (some org) →
        d.GetUserByRef tx1.store userRef = Except.ok (some user) →
        d.GetOrgMemberByOrgUserID tx1.store org.ID user.ID = Except.ok (some m) →
          action.AddOrgMember d orgRef userRef role tx1 = (tx1, Except.ok m)) ∧
      (d.GetOrgMemberByOrgUserID tx.store org.ID user.ID = Except.ok none →
        ∀ (m : types.OrganizationMember) (s0 s1 : σ),
          s0 = (d.NewOrganizationMember tx.store).1 →
          m = { (d.NewOrganizationMember tx.store).2 with
                OrganizationID := org.ID, UserID := user.ID, MemberRole := role } →
          d.InsertOrUpdateOrganizationMember s0 m = (s1, none) →
          (d.GetOrgInvitationByOrgUserID s1 org.ID user.ID = Except.ok none →
            action.AddOrgMember d orgRef userRef role tx =
              ({ store := s1,
                 writes := tx.writes ++ [action.Write.InsertOrUpdateOrganizationMember m] },
                Except.ok m)) ∧
          (∀ (inv : types.OrgInvitation) (s2 : σ),
            d.GetOrgInvitationByOrgUserID s1 org.ID user.ID = Except.ok (some inv) →
            d.DeleteOrgInvitation s1 inv.ID = (s2, none) →
            action.AddOrgMember d orgRef userRef role tx =
              ({ store := s2,
                 writes := tx.writes ++ [action.Write.InsertOrUpdateOrganizationMember m,
                   action.Write.DeleteOrgInvitation inv.ID] },
                Except.ok m))) ∧
      (∀ m0 : types.OrganizationMember,
        d.GetOrgMemberByOrgUserID tx.store org.ID user.ID = Except.ok (some m0) →
        m0.MemberRole ≠ role →
        ∀ (m : types.OrganizationMember) (s1 : σ),
          m = { m0 with MemberRole := role } →
          d.InsertOrUpdateOrganizationMember tx.store m = (s1, none) →
          (d.GetOrgInvitationByOrgUserID s1 org.ID user.ID = Except.ok none →
            action.AddOrgMember d orgRef userRef role tx =
              ({ store := s1,
                 writes := tx.writes ++ [action.Write.InsertOrUpdateOrganizationMember m] },
                Except.ok m)) ∧
          (∀ (inv : types.OrgInvitation) (s2 : σ),
            d.GetOrgInvitationByOrgUserID s1 org.ID user.ID = Except.ok (some inv) →
            d.DeleteOrgInvitation s1 inv.ID = (s2, none) →
            action.AddOrgMember d orgRef userRef role tx =
              ({ store := s2,
                 writes := tx.writes ++ [action.Write.InsertOrUpdateOrganizationMember m,
                   action.Write.DeleteOrgInvitation inv.ID] },
                Except.ok m)))) := by
  constructor
  · intro hr
    simp [action.AddOrgMember, hr]
  intro org user hr horg huser
  have hnone : d.GetOrgMemberByOrgUserID tx.store org.ID user.ID = Except.ok none →
      ∀ (tx1 : action.Tx σ) (m : types.OrganizationMember),
        action.AddOrgMember d orgRef userRef role tx = (tx1, Except.ok m) →
          m = { (d.NewOrganizationMember tx.store).2 with
                OrganizationID := org.ID, UserID := user.ID, MemberRole := role } ∧
          (tx1.writes = tx.writes ++ [action.Write.InsertOrUpdateOrganizationMember m] ∨
            ∃ inv : types.OrgInvitation,
              tx1.writes = tx.writes ++ [action.Write.InsertOrUpdateOrganizationMember m,
                action.Write.DeleteOrgInvitation inv.ID]) := by
    intro hm tx1 m h
    have h1 := action.AddOrgMember_ok d orgRef userRef role tx tx1 m h
    simp only [action.AddOrgMember_tx, horg, huser, hm] at h1
    obtain ⟨hmeq, hw⟩ := action.AddOrgMember_write_ok d org user _ m _ tx1 h1
    subst hmeq
    exact ⟨rfl, hw⟩
  have hdiff : ∀ m0 : types.OrganizationMember,
      d.GetOrgMemberByOrgUserID tx.store org.ID user.ID = Except.ok (some m0) →
      m0.MemberRole ≠ role →
      ∀ (tx1 : action.Tx σ) (m : types.OrganizationMember),
        action.AddOrgMember d orgRef userRef role tx = (tx1, Except.ok m) →
          m = { m0 with MemberRole := role } ∧
          (tx1.writes = tx.writes ++ [action.Write.InsertOrUpdateOrganizationMember m] ∨
            ∃ inv : types.OrgInvitation,
              tx1.writes = tx.writes ++ [action.Write.InsertOrUpdateOrganizationMember m,
                action.Write.DeleteOrgInvitation inv.ID]) := by
    intro m0 hm hne tx1 m h
    have h1 := action.AddOrgMember_ok d orgRef userRef role tx tx1 m h
    simp only [action.AddOrgMember_tx, horg, huser, hm, hne, if_false] at h1
    obtain ⟨hmeq, hw⟩ := action.AddOrgMember_write_ok d org user _ m _ tx1 h1
    subst hmeq
    exact ⟨rfl, hw⟩
  have hsame : ∀ m0 : types.OrganizationMember,
      d.GetOrgMemberByOrgUserID tx.store org.ID user.ID = Except.ok (some m0) →
      m0.MemberRole = role →
        action.AddOrgMember d orgRef userRef role tx = (tx, Except.ok m0) := by
    intro m0 hm hs
    exact action.AddOrgMember_of_tx_ok d orgRef userRef role tx tx m0 hr
      (action.AddOrgMember_tx_same_role d orgRef userRef role tx org user m0 horg huser hm hs)
  have hret : ∀ (tx1 : action.Tx σ) (m : types.OrganizationMember),
      action.AddOrgMember d orgRef userRef role tx = (tx1, Except.ok m) →
        m.MemberRole = role ∧
        ((∀ m0, d.GetOrgMemberByOrgUserID tx.store org.ID user.ID = Except.ok (some m0) →
            m0.OrganizationID = org.ID ∧ m0.UserID = user.ID) →
          m.OrganizationID = org.ID ∧ m.UserID = user.ID) := by
    intro tx1 m h
    rcases hm : d.GetOrgMemberByOrgUserID tx.store org.ID user.ID with e | (_ | m0)
    · have h1 := action.AddOrgMember_ok d orgRef userRef role tx tx1 m h
      simp [action.AddOrgMember_tx, horg, huser, hm] at h1
    · obtain ⟨hmeq, _⟩ := hnone hm tx1 m h
      subst hmeq
      exact ⟨rfl, fun _ => ⟨rfl, rfl⟩⟩
    · by_cases hs : m0.MemberRole = role
      · have h2 := hsame m0 hm hs
        rw [h2] at h
        simp only [Prod.mk.injEq, Except.ok.injEq] at h
        obtain ⟨_, rfl⟩ := h
        exact ⟨hs, fun hl => hl m0 rfl⟩
      · obtain ⟨hmeq, _⟩ := hdiff m0 hm hs tx1 m h
        subst hmeq
        exact ⟨rfl, fun hl => hl m0 rfl⟩
  refine ⟨hret, hnone, hdiff, hsame, ?_, ?_, ?_⟩
  · intro tx1 m h horg1 huser1 hm1
    have hrole := (hret tx1 m h).1
    exact action.AddOrgMember_of_tx_ok d orgRef userRef role tx1 tx1 m hr
      (action.AddOrgMember_tx_same_role d orgRef userRef role tx1 org user m horg1 huser1
        hm1 hrole)
  · intro hm m s0 s1 hs0 hmeq hi
    subst hs0 hmeq
    have hp := action.AddOrgMember_write_produces d org user _
      (action.NewOrganizationMember d tx).1 s1 hi
    have hstep : ∀ (t : action.Tx σ) (r : Except Error types.OrganizationMember),
        action.AddOrgMember_write d org user
          { (d.NewOrganizationMember tx.store).2 with
            OrganizationID := org.ID, UserID := user.ID, MemberRole := role }
          (action.NewOrganizationMember d tx).1 = (t, r) →
        action.AddOrgMember_tx d orgRef userRef role tx = (t, r) := by
      intro t r hw
      simp only [action.AddOrgMember_tx, horg, huser, hm]
      exact hw
    constructor
    · intro hl
      exact action.AddOrgMember_of_tx_ok d orgRef userRef role tx _ _ hr
        (hstep _ _ (hp.1 hl))
    · intro inv s2 hl hdel
      exact action.AddOrgMember_of_tx_ok d orgRef userRef role tx _ _ hr
        (hstep _ _ (hp.2 inv s2 hl hdel))
  · intro m0 hm hne m s1 hmeq hi
    subst hmeq
    have hp := action.AddOrgMember_write_produces d org user _ tx s1 hi
    have hstep : ∀ (t : action.Tx σ) (r : Except Error types.OrganizationMember),
        action.AddOrgMember_write d org user { m0 with MemberRole := role } tx = (t, r) →
        action.AddOrgMember_tx d orgRef userRef role tx = (t, r) := by
      intro t r hw
      simp only [action.AddOrgMember_tx, horg, huser, hm, hne, if_false]
      exact hw
    constructor
    · intro hl
      exact action.AddOrgMember_of_tx_ok d orgRef userRef role tx _ _ hr
        (hstep _ _ (hp.1 hl))
    · intro inv s2 hl hdel
      exact action.AddOrgMember_of_tx_ok d orgRef userRef role tx _ _ hr
        (hstep _ _ (hp.2 inv s2 hl hdel))

/-- C12, instance: on the store in memory, where `bob` is a member of `acme`
with role member and is invited to `acme`, and `alice` is owner of `acme`
and, on `invitedStore`, invited to `beta`. Adding `bob` to `beta` writes a
new member and nothing else; adding `alice` to `beta` on `invitedStore` writes
a new member and deletes her invitation; making `alice` a member of `acme`
writes her membership with the role changed and nothing else; making `bob`
owner of `acme` writes his membership with the role changed and deletes his
invitation; that call once more writes nothing and returns the same member. -/
theorem AddOrgMember_adds_or_updates_witness :
    (∃ s1 : sample.MemStore,
      action.AddOrgMember sample.memDeps "beta" "bob" "member" sample.memTx =
        ({ store := s1,
           writes := [action.Write.InsertOrUpdateOrganizationMember
             { ID := "new-", OrganizationID := "o2", UserID := "u2",
               MemberRole := "member" }] },
          Except.ok { ID := "new-", OrganizationID := "o2", UserID := "u2",
                      MemberRole := "member" })) ∧
    (∃ s2 : sample.MemStore,
      action.AddOrgMember sample.memDeps "beta" "alice" "member" sample.invitedTx =
        ({ store := s2,
           writes := [action.Write.InsertOrUpdateOrganizationMember
             { ID := "new-", OrganizationID := "o2", UserID := "u1",
               MemberRole := "member" },
             action.Write.DeleteOrgInvitation "i2"] },
          Except.ok { ID := "new-", OrganizationID := "o2", UserID := "u1",
                      MemberRole := "member" })) ∧
    (∃ s1 : sample.MemStore,
      action.AddOrgMember sample.memDeps "acme" "alice" "member" sample.memTx =
        ({ store := s1,
           writes := [action.Write.InsertOrUpdateOrganizationMember
             { ID := "m1", OrganizationID := "o1", UserID := "u1",
               MemberRole := "member" }] },
          Except.ok { ID := "m1", OrganizationID := "o1", UserID := "u1",
                      MemberRole := "member" })) ∧
    (∃ s2 : sample.MemStore,
      action.AddOrgMember sample.memDeps "acme" "bob" "owner" sample.memTx =
        ({ store := s2,
           writes := [action.Write.InsertOrUpdateOrganizationMember
             { sample.bobInAcme with MemberRole := "owner" },
             action.Write.DeleteOrgInvitation "i1"] },
          Except.ok { sample.bobInAcme with MemberRole := "owner" })) ∧
    action.AddOrgMember sample.memDeps "acme" "bob" "owner"
        (action.AddOrgMember sample.memDeps "acme" "bob" "owner" sample.memTx).1 =
      ((action.AddOrgMember sample.memDeps "acme" "bob" "owner" sample.memTx).1,
        Except.ok { sample.bobInAcme with MemberRole := "owner" }) :=
  ⟨⟨(sample.memDeps.InsertOrUpdateOrganizationMember
        (sample.memDeps.NewOrganizationMember sample.memStore).1
        { ID := "new-", OrganizationID := "o2", UserID := "u2", MemberRole := "member" }).1,
      (((AddOrgMember_adds_or_updates sample.memDeps "beta" "bob" "member" sample.memTx).2
        sample.beta sample.bob (by rfl) (by rfl) (by rfl)).2.2.2.2.2.1 (by rfl)
        { ID := "new-", OrganizationID := "o2", UserID := "u2", MemberRole := "member" }
        (sample.memDeps.NewOrganizationMember sample.memStore).1
        (sample.memDeps.InsertOrUpdateOrganizationMember
          (sample.memDeps.NewOrganizationMember sample.memStore).1
          { ID := "new-", OrganizationID := "o2", UserID := "u2",
            MemberRole := "member" }).1
        rfl (by rfl) (by rfl)).1 (by rfl)⟩,
    ⟨(sample.memDeps.DeleteOrgInvitation
        (sample.memDeps.InsertOrUpdateOrganizationMember
          (sample.memDeps.NewOrganizationMember sample.invitedStore).1
          { ID := "new-", OrganizationID := "o2", UserID := "u1",
            MemberRole := "member" }).1 "i2").1,
      (((AddOrgMember_adds_or_updates sample.memDeps "beta" "alice" "member"
          sample.invitedTx).2
        sample.beta sample.alice (by rfl) (by rfl) (by rfl)).2.2.2.2.2.1 (by rfl)
        { ID := "new-", OrganizationID := "o2", UserID := "u1", MemberRole := "member" }
        (sample.memDeps.NewOrganizationMember sample.invitedStore).1
        (sample.memDeps.InsertOrUpdateOrganizationMember
          (sample.memDeps.NewOrganizationMember sample.invitedStore).1
          { ID := "new-", OrganizationID := "o2", UserID := "u1",
            MemberRole := "member" }).1
        rfl (by rfl) (by rfl)).2 sample.aliceInvited _ (by rfl) (by rfl)⟩,
    ⟨(sample.memDeps.InsertOrUpdateOrganizationMember sample.memStore
        { ID := "m1", OrganizationID := "o1", UserID := "u1", MemberRole := "member" }).1,
      (((AddOrgMember_adds_or_updates sample.memDeps "acme" "alice" "member" sample.memTx).2
        sample.acme sample.alice (by rfl) (by rfl) (by rfl)).2.2.2.2.2.2
        { ID := "m1", OrganizationID := "o1", UserID := "u1", MemberRole := "owner" }
        (by rfl) (by decide)
        { ID := "m1", OrganizationID := "o1", UserID := "u1", MemberRole := "member" }
        (sample.memDeps.InsertOrUpdateOrganizationMember sample.memStore
          { ID := "m1", OrganizationID := "o1", UserID := "u1",
            MemberRole := "member" }).1
        (by rfl) (by rfl)).1 (by rfl)⟩,
    ⟨(sample.memDeps.DeleteOrgInvitation
        (sample.memDeps.InsertOrUpdateOrganizationMember sample.memStore
          { sample.bobInAcme with MemberRole := "owner" }).1 "i1").1,
      (((AddOrgMember_adds_or_updates sample.memDeps "acme" "bob" "owner" sample.memTx).2
        sample.acme sample.bob (by rfl) (by rfl) (by rfl)).2.2.2.2.2.2
        sample.bobInAcme (by rfl) (by decide)
        { sample.bobInAcme with MemberRole := "owner" }
        (sample.memDeps.InsertOrUpdateOrganizationMember sample.memStore
          { sample.bobInAcme with MemberRole := "owner" }).1
        (by rfl) (by rfl)).2 sample.bobInvited _ (by rfl) (by rfl)⟩,
    ((AddOrgMember_adds_or_updates sample.memDeps "acme" "bob" "owner" sample.memTx).2
      sample.acme sample.bob (by rfl) (by rfl) (by rfl)).2.2.2.2.1
      (action.AddOrgMember sample.memDeps "acme" "bob" "owner" sample.memTx).1
      { sample.bobInAcme with MemberRole := "owner" } (by rfl) (by rfl) (by rfl) (by rfl)⟩

/-! ## C13: the invitation after `AddOrgMember` -/

/-- C13, the code at the failing input: on the store in memory, where `bob`
is a member of `acme` with role member and has a pending invitation to
`acme`, `AddOrgMember` for `acme`, `bob` and role member succeeds, returns the
existing member and leaves the transaction as it was, so the invitation is
still in the store; the same call with role owner, which writes the member,
does delete the invitation. -/
theorem AddOrgMember_same_role_keeps_invitation :
    action.AddOrgMember sample.memDeps "acme" "bob" "member" sample.memTx =
      (sample.memTx, Except.ok sample.bobInAcme) ∧
    sample.memDeps.GetOrgInvitationByOrgUserID
        (action.AddOrgMember sample.memDeps "acme" "bob" "member" sample.memTx).1.store
        "o1" "u2" = Except.ok (some sample.bobInvited) ∧
    sample.memDeps.GetOrgInvitationByOrgUserID
        (action.AddOrgMember sample.memDeps "acme" "bob" "owner" sample.memTx).1.store
        "o1" "u2" = Except.ok none :=
  ⟨by rfl, by rfl, by rfl⟩

/-! ## C14: pagination of `GetOrgs` and `GetOrgMembers` -/

namespace action

theorem storeLimit_pos (n : Int) (h0 : 0 < n) (h1 : n < maxInt) : storeLimit n = n + 1 := by
  unfold storeLimit intAdd
  unfold maxInt at h1
  rw [if_pos h0]
  omega

theorem storeLimit_nonpos (n : Int) (h0 : n ≤ 0) : storeLimit n = n := by
  unfold storeLimit
  rw [if_neg (by omega)]

theorem page_eq {α : Type} (rows : List α) (n : Int) (h0 : 0 < n) :
    (if n > 0 ∧ decide ((rows.length : Int) > n) = true then rows.take n.toNat else rows) =
      rows.take n.toNat := by
  by_cases hlen : (rows.length : Int) > n
  · simp [h0, hlen]
  · have : rows.length ≤ n.toNat := by omega
    simp [hlen, List.take_of_length_le this]

theorem GetOrgs_eq {σ : Type} (d : Deps σ) (req : GetOrgsRequest) (tx : Tx σ)
    (rows : List types.Organization)
    (h : d.GetOrgs tx.store req.StartOrgName (visibilitiesOf d req.Visibilities)
      (storeLimit req.Limit) (sortDirectionOf d req.SortDirection) = Except.ok rows) :
    GetOrgs d req tx =
      (tx, Except.ok
        { Orgs :=
            if req.Limit > 0 ∧ decide ((rows.length : Int) > req.Limit) = true
            then rows.take req.Limit.toNat else rows,
          HasMore :=
            if req.Limit > 0 then decide ((rows.length : Int) > req.Limit) else false }) := by
  have hc : GetOrgs_tx d req (storeLimit req.Limit) tx = (tx, Except.ok rows) := by
    simp [GetOrgs_tx, h]
  unfold GetOrgs
  simp only [Do_of_ok tx tx _ rows hc]
  by_cases h0 : req.Limit > 0 <;> simp [h0]

theorem GetOrgMembers_eq {σ : Type} (d : Deps σ) (req : GetOrgMembersRequest) (tx : Tx σ)
    (org : types.Organization) (rows : List OrgUser)
    (horg : d.GetOrgByRef tx.store req.OrgRef = Except.ok (some org))
    (h : d.GetOrgMembers tx.store org.ID req.StartUserName (storeLimit req.Limit)
      (sortDirectionOf d req.SortDirection) = Except.ok rows) :
    GetOrgMembers d req tx =
      (tx, Except.ok
        { OrgMembers :=
            if req.Limit > 0 ∧
              decide (((rows.map orgMemberResponse).length : Int) > req.Limit) = true
            then (rows.map orgMemberResponse).take req.Limit.toNat
            else rows.map orgMemberResponse,
          HasMore :=
            if req.Limit > 0
            then decide (((rows.map orgMemberResponse).length : Int) > req.Limit)
            else false }) := by
  have hc : GetOrgMembers_tx d req (storeLimit req.Limit) tx = (tx, Except.ok rows) := by
    simp [GetOrgMembers_tx, horg, h]
  unfold GetOrgMembers
  simp only [Do_of_ok tx tx _ rows hc]
  by_cases h0 : req.Limit > 0 <;> simp [h0]

end action

set_option maxRecDepth 100000 in
/-- C14, counterexample: for `Limit` equal to the largest `int` the
incremented limit wraps around, so the store is asked with the smallest `int`
and not for `Limit+1` rows. On a store that refuses a negative limit, and
that would return three organizations for `Limit+1`, `GetOrgs` therefore
fails instead of returning them. -/
theorem storeLimit_max_counterexample :
    action.storeLimit maxInt = minInt ∧ minInt ≠ maxInt + 1 ∧
    sample.strictDeps.GetOrgs sample.memStore "" ["public"] (maxInt + 1) "asc" =
      Except.ok [sample.acme, sample.beta, sample.gamma] ∧
    (action.GetOrgs sample.strictDeps
        { StartOrgName := "", Visibilities := [], Limit := maxInt, SortDirection := "" }
        sample.memTx).2 =
      Except.error (errors.WithStack (errors.WithStack
        (Error.driver "LIMIT must not be negative"))) := by
  refine ⟨by decide, by decide, by rfl, by rfl⟩

/-- C14, amended: the limit handed to the store is `Limit+1` when
`0 < Limit` and `Limit` is below the largest `int`, and `Limit` itself when
`Limit <= 0`. With `rows` the list the store returns for the limit it is
handed, `GetOrgs` and `GetOrgMembers` (for an organization that exists)
answer: for `Limit > 0`, the first `min(|rows|, Limit)` elements of `rows` in
order, each mapped to its user and role for `GetOrgMembers`, with `HasMore`
true exactly when `|rows| > Limit`, so at most `Limit` items; for
`Limit <= 0`, all of `rows` in order with `HasMore` false. -/
theorem GetOrgs_GetOrgMembers_pagination {σ : Type} (d : action.Deps σ) (tx : action.Tx σ) :
    (∀ n : Int, 0 < n → n < maxInt → action.storeLimit n = n + 1) ∧
    (∀ n : Int, n ≤ 0 → action.storeLimit n = n) ∧
    (∀ (req : action.GetOrgsRequest) (rows : List types.Organization),
      d.GetOrgs tx.store req.StartOrgName (action.visibilitiesOf d req.Visibilities)
        (action.storeLimit req.Limit) (action.sortDirectionOf d req.SortDirection)
        = Except.ok rows →
      (0 < req.Limit →
        action.GetOrgs d req tx =
          (tx, Except.ok { Orgs := rows.take req.Limit.toNat,
                           HasMore := decide ((rows.length : Int) > req.Limit) }) ∧
        (rows.take req.Limit.toNat).length = min rows.length req.Limit.toNat ∧
        ((rows.take req.Limit.toNat).length : Int) ≤ req.Limit) ∧
      (req.Limit ≤ 0 →
        action.GetOrgs d req tx = (tx, Except.ok { Orgs := rows, HasMore := false }))) ∧
    (∀ (req : action.GetOrgMembersRequest) (org : types.Organization)
        (rows : List action.OrgUser),
      d.GetOrgByRef tx.store req.OrgRef = Except.ok (some org) →
      d.GetOrgMembers tx.store org.ID req.StartUserName (action.storeLimit req.Limit)
        (action.sortDirectionOf d req.SortDirection) = Except.ok rows →
      (0 < req.Limit →
        action.GetOrgMembers d req tx =
          (tx, Except.ok
            { OrgMembers := (rows.take req.Limit.toNat).map
                (fun orgUser => { User := orgUser.User, Role := orgUser.Role }),
              HasMore := decide ((rows.length : Int) > req.Limit) }) ∧
        ((rows.take req.Limit.toNat).map
            (fun orgUser => ({ User := orgUser.User, Role := orgUser.Role } :
              action.OrgMember))).length = min rows.length req.Limit.toNat ∧
        (((rows.take req.Limit.toNat).map
            (fun orgUser => ({ User := orgUser.User, Role := orgUser.Role } :
              action.OrgMember))).length : Int) ≤ req.Limit) ∧
      (req.Limit ≤ 0 →
        action.GetOrgMembers d req tx =
          (tx, Except.ok
            { OrgMembers := rows.map
                (fun orgUser => { User := orgUser.User, Role := orgUser.Role }),
              HasMore := false }))) := by
  refine ⟨action.storeLimit_pos, action.storeLimit_nonpos, ?_, ?_⟩
  · intro req rows h
    have heq := action.GetOrgs_eq d req tx rows h
    constructor
    · intro h0
      rw [heq, action.page_eq rows req.Limit h0]
      refine ⟨by simp [h0], by simp [List.length_take, Nat.min_comm], ?_⟩
      simp only [List.length_take]
      omega
    · intro h0
      rw [heq]
      have : ¬ req.Limit > 0 := by omega
      simp [this]
  · intro req org rows horg h
    have heq := action.GetOrgMembers_eq d req tx org rows horg h
    have hmap : rows.map action.orgMemberResponse =
        rows.map (fun orgUser => ({ User := orgUser.User, Role := orgUser.Role } :
          action.OrgMember)) := rfl
    constructor
    · intro h0
      rw [heq, action.page_eq _ req.Limit h0]
      refine ⟨by simp [h0, ← hmap, List.map_take], by simp [List.length_take, Nat.min_comm],
        ?_⟩
      simp only [List.length_map, List.length_take]
      omega
    · intro h0
      rw [heq]
      have : ¬ req.Limit > 0 := by omega
      simp [this, hmap]

/-- C14, instance: on the store in memory with its three public
organizations, `GetOrgs` with `Limit` 2 hands the limit 3 to the store and
answers the first two organizations with `HasMore` true. -/
theorem GetOrgs_GetOrgMembers_pagination_witness :
    action.storeLimit 2 = 3 ∧
    action.GetOrgs sample.memDeps
        { StartOrgName := "", Visibilities := [], Limit := 2, SortDirection := "" }
        sample.memTx =
      (sample.memTx, Except.ok { Orgs := [sample.acme, sample.beta], HasMore := true }) :=
  ⟨(GetOrgs_GetOrgMembers_pagination sample.memDeps sample.memTx).1 2 (by decide) (by decide),
    ((GetOrgs_GetOrgMembers_pagination sample.memDeps sample.memTx).2.2.1
      { StartOrgName := "", Visibilities := [], Limit := 2, SortDirection := "" }
      [sample.acme, sample.beta, sample.gamma] (by rfl)).1 (by decide) |>.1⟩

end Agola
